import Mathlib

/-!
Verification of the `imt` I2C HID multi-touch driver (src/imt.c) against its
natural-language specification.

The development shallow-embeds the driver's pure logic:

* the HID descriptor item stream (produced by the external `hid_start_parse` /
  `hid_get_item` tokenizer) is a `List hid_item`; the external tokenizer
  delivers collection/endcollection markers unconditionally and data items
  filtered by kind, which the embedded walks reproduce by dispatching on
  `hid_item.kind` and ignoring kinds the walk does not handle;
* machine integers are `Nat`/`Int` with explicit `% 2^32` where the C
  `uint32_t` arithmetic can wrap;
* the external bit-extraction helper `hid_get_data_unsigned`, the external
  slot allocator `evdev_get_mt_slot_by_tracking_id` and the event sink
  `evdev_push_abs`/`evdev_sync` are abstracted: decoded field values and slot
  resolutions are supplied by an oracle structure, and emitted events are
  collected into a list.
-/

namespace Imt

/-- `2^32`, the modulus of C `uint32_t` arithmetic. -/
def U32 : Nat := 4294967296

/-- Buffer size, from `#define WMT_BSIZE 1024` in src/imt.c. -/
def WMT_BSIZE : Nat := 1024

/-- Maximum number of MT slots, from `MAX_MT_SLOTS` in dev/evdev/evdev.h
(external header; FreeBSD defines it as 64). -/
def MAX_MT_SLOTS : Nat := 64

/-- `HID_USAGE2(page, usage) = (page << 16) | usage` from usbhid.h. -/
def HID_USAGE2 (page usage : Nat) : Nat := (page <<< 16) ||| usage

/- HID usage pages and usages, values from sys/dev/usb/usbhid.h. -/

def HUP_GENERIC_DESKTOP : Nat := 0x0001
def HUP_DIGITIZERS : Nat := 0x000d
def HUP_MICROSOFT : Nat := 0xff00

def HUG_X : Nat := 0x0030
def HUG_Y : Nat := 0x0031

def HUD_TOUCHSCREEN : Nat := 0x0004
def HUD_TOUCHPAD : Nat := 0x0005
def HUD_CONFIG : Nat := 0x000e
def HUD_FINGER : Nat := 0x0022
def HUD_TIP_PRESSURE : Nat := 0x0030
def HUD_IN_RANGE : Nat := 0x0032
def HUD_TIP_SWITCH : Nat := 0x0042
def HUD_CONFIDENCE : Nat := 0x0047
def HUD_WIDTH : Nat := 0x0048
def HUD_HEIGHT : Nat := 0x0049
def HUD_CONTACTID : Nat := 0x0051
def HUD_INPUT_MODE : Nat := 0x0052
def HUD_CONTACTCOUNT : Nat := 0x0054
def HUD_CONTACT_MAX : Nat := 0x0055
def HUD_SCAN_TIME : Nat := 0x0056

/-- `#define HUMS_THQA_CERT 0xC5` from src/imt.c. -/
def HUMS_THQA_CERT : Nat := 0xC5

/- evdev ABS event codes, values from dev/evdev/input-event-codes.h. -/

def ABS_MT_SLOT : Nat := 0x2f
def ABS_MT_TOUCH_MAJOR : Nat := 0x30
def ABS_MT_TOUCH_MINOR : Nat := 0x31
def ABS_MT_ORIENTATION : Nat := 0x34
def ABS_MT_POSITION_X : Nat := 0x35
def ABS_MT_POSITION_Y : Nat := 0x36
def ABS_MT_TRACKING_ID : Nat := 0x39
def ABS_MT_PRESSURE : Nat := 0x3a
def ABS_MT_DISTANCE : Nat := 0x3b
def ABS_MT_TOOL_X : Nat := 0x3c
def ABS_MT_TOOL_Y : Nat := 0x3d
def ABS_MAX : Nat := 0x3f

/-- `#define WMT_NO_CODE (ABS_MAX + 10)` from src/imt.c. -/
def WMT_NO_CODE : Nat := ABS_MAX + 10

/-- `#define WMT_NO_USAGE -1` from src/imt.c.  The C comparison
`hi.usage == wmt_hid_map[i].usage` converts the `int32_t` `-1` to `uint32_t`,
so the no-usage sentinel compares as `0xFFFFFFFF`. -/
def WMT_NO_USAGE : Nat := 0xFFFFFFFF

/-- `struct hid_location` from usbhid.h: bit width (`size`), repeat count and
bit offset (`pos`) of a field inside a report.  All three are `uint32_t`. -/
structure hid_location where
  size : Nat
  count : Nat
  pos : Nat
deriving DecidableEq, Repr, Inhabited

/-- Item kinds delivered by the external HID tokenizer (`enum hid_kind`). -/
inductive hid_kind where
  | hid_input
  | hid_output
  | hid_collection
  | hid_endcollection
  | hid_feature
deriving DecidableEq, Repr, Inhabited

/-- One item of the descriptor item stream (`struct hid_item`, usbhid.h),
restricted to the fields src/imt.c reads.  `res` stands for the value the
external helper `hid_item_resolution` computes from the item's unit fields. -/
structure hid_item where
  kind : hid_kind
  collevel : Nat
  usage : Nat
  flags : Nat
  report_ID : Nat
  logical_minimum : Int
  logical_maximum : Int
  loc : hid_location
  res : Int
deriving DecidableEq, Repr, Inhabited

/-- HIO flags from usbhid.h: `HIO_CONST = 1`, `HIO_VARIABLE = 2`,
`HIO_RELATIVE = 4`.  `WMT_HI_ABSOLUTE(hi)` is
`(hi.flags & (HIO_CONST|HIO_VARIABLE|HIO_RELATIVE)) == HIO_VARIABLE`. -/
def WMT_HI_ABSOLUTE (hi : hid_item) : Bool := hi.flags &&& 7 == 2

/-! ## Report Size Calculator (`wmt_hid_report_size`, src/imt.c:552-586) -/

/-- The selection test of `wmt_hid_report_size`'s loop
(`h.kind == k && h.report_ID == id`, src/imt.c:565). -/
def sizeMatch (k : hid_kind) (id : Nat) (h : hid_item) : Bool :=
  h.kind = k ∧ h.report_ID = id

/-- The loop body of `wmt_hid_report_size`: the accumulator is
`(lpos, hpos)`.  On a matching item the code takes the minimum of `lpos` and
`h.loc.pos` and the maximum of `hpos` and
`temp = h.loc.pos + h.loc.size * h.loc.count` (all `uint32_t`, hence the
`% U32`). -/
def wmt_hid_report_size_step (k : hid_kind) (id : Nat) (acc : Nat × Nat)
    (h : hid_item) : Nat × Nat :=
  if sizeMatch k id h then
    (min acc.1 (h.loc.pos % U32),
     max acc.2 ((h.loc.pos + h.loc.size * h.loc.count) % U32))
  else acc

/-- `wmt_hid_report_size` (src/imt.c:552-586): scan the items of kind `k`
with report id `id`, starting from `lpos = 0xFFFFFFFF`, `hpos = 0`; if
`lpos > hpos` the span is `0` (corrupt-descriptor guard), otherwise
`hpos - lpos`; return `(temp + 7) / 8` computed in `uint32_t`. -/
def wmt_hid_report_size (items : List hid_item) (k : hid_kind) (id : Nat) :
    Nat :=
  let s := items.foldl (wmt_hid_report_size_step k id) (U32 - 1, 0)
  let temp := if s.2 < s.1 then 0 else s.2 - s.1
  ((temp + 7) % U32) / 8

/-- End bit position of an item, `offset + width * count`, in exact (not
wrapping) arithmetic; used by the specification-side formula. -/
def specEndBit (h : hid_item) : Nat := h.loc.pos + h.loc.size * h.loc.count

/-- Modelled from the spec's words (spec.md §4.1 and claim C3), for
comparison with `wmt_hid_report_size`: "track the minimum starting bit
position and the maximum ending bit position (`offset + width*count`) across
matches.  Returns `ceil((max_end − min_start) / 8)` bytes, or `0` bytes if no
item matched or if computed `max_end < min_start`" — with the arithmetic read
as exact integer arithmetic. -/
def report_size_spec (items : List hid_item) (k : hid_kind) (id : Nat) :
    Nat :=
  match items.filter (sizeMatch k id) with
  | [] => 0
  | h0 :: hs =>
    let maxEnd := hs.foldl (fun a h => max a (specEndBit h)) (specEndBit h0)
    let minStart := hs.foldl (fun a h => min a h.loc.pos) h0.loc.pos
    if maxEnd < minStart then 0 else (maxEnd - minStart + 7) / 8

/-! ## The channel table (`wmt_hid_map`, src/imt.c:124-198) -/

/- Channel indices (the anonymous enum at src/imt.c:95-112). -/

def WMT_TIP_SWITCH : Nat := 0
def WMT_SLOT : Nat := WMT_TIP_SWITCH
def WMT_WIDTH : Nat := 1
def WMT_MAJOR : Nat := WMT_WIDTH
def WMT_HEIGHT : Nat := 2
def WMT_MINOR : Nat := WMT_HEIGHT
def WMT_ORIENTATION : Nat := 3
def WMT_X : Nat := 4
def WMT_Y : Nat := 5
def WMT_CONTACTID : Nat := 6
def WMT_PRESSURE : Nat := 7
def WMT_IN_RANGE : Nat := 8
def WMT_CONFIDENCE : Nat := 9
def WMT_TOOL_X : Nat := 10
def WMT_TOOL_Y : Nat := 11
def WMT_N_USAGES : Nat := 12

/-- One row of `wmt_hid_map` (src/imt.c:117-122); the display name is
irrelevant to the logic and dropped. -/
structure wmt_hid_map_item where
  usage : Nat
  code : Nat
  required : Bool
deriving DecidableEq, Repr

/-- The constant channel table `wmt_hid_map` (src/imt.c:124-198).  Indices
outside the table (the C loop never reads them) map to a row whose usage is
an unused page so that it matches no descriptor usage handled here. -/
def wmt_hid_map : Nat → wmt_hid_map_item
  | 0 => ⟨HID_USAGE2 HUP_DIGITIZERS HUD_TIP_SWITCH, ABS_MT_SLOT, true⟩
  | 1 => ⟨HID_USAGE2 HUP_DIGITIZERS HUD_WIDTH, ABS_MT_TOUCH_MAJOR, false⟩
  | 2 => ⟨HID_USAGE2 HUP_DIGITIZERS HUD_HEIGHT, ABS_MT_TOUCH_MINOR, false⟩
  | 3 => ⟨WMT_NO_USAGE, ABS_MT_ORIENTATION, false⟩
  | 4 => ⟨HID_USAGE2 HUP_GENERIC_DESKTOP HUG_X, ABS_MT_POSITION_X, true⟩
  | 5 => ⟨HID_USAGE2 HUP_GENERIC_DESKTOP HUG_Y, ABS_MT_POSITION_Y, true⟩
  | 6 => ⟨HID_USAGE2 HUP_DIGITIZERS HUD_CONTACTID, ABS_MT_TRACKING_ID, true⟩
  | 7 => ⟨HID_USAGE2 HUP_DIGITIZERS HUD_TIP_PRESSURE, ABS_MT_PRESSURE, false⟩
  | 8 => ⟨HID_USAGE2 HUP_DIGITIZERS HUD_IN_RANGE, ABS_MT_DISTANCE, false⟩
  | 9 => ⟨HID_USAGE2 HUP_DIGITIZERS HUD_CONFIDENCE, WMT_NO_CODE, false⟩
  | 10 => ⟨HID_USAGE2 HUP_GENERIC_DESKTOP HUG_X, ABS_MT_TOOL_X, false⟩
  | 11 => ⟨HID_USAGE2 HUP_GENERIC_DESKTOP HUG_Y, ABS_MT_TOOL_Y, false⟩
  | _ + 12 => ⟨HID_USAGE2 0xffff 0, WMT_NO_CODE, false⟩

/-- `struct wmt_absinfo` (src/imt.c:200-204), fields are `int32_t`. -/
structure wmt_absinfo where
  min : Int
  max : Int
  res : Int
deriving DecidableEq, Repr, Inhabited

/-- Pointwise update of a one-argument table. -/
def upd1 {α : Type} (f : Nat → α) (i : Nat) (v : α) : Nat → α :=
  fun j => if j = i then v else f j

/-- Pointwise update of a two-argument table. -/
def upd2 {α : Type} (f : Nat → Nat → α) (i j : Nat) (v : α) :
    Nat → Nat → α :=
  fun x y => if x = i ∧ y = j then v else f x y

/-! ## Report Decoder (`imt_intr`, src/imt.c:423-545)

The raw buffer, its `bzero` zero-extension to `isize` and the external
bit-extraction `hid_get_data_unsigned` are modelled together by the oracle
`DecodeEnv.getData`, giving the decoded unsigned value of a field location in
this call's (zero-extended) buffer.  `DecodeEnv.getSlot` models the external
allocator `evdev_get_mt_slot_by_tracking_id`.  Events pushed through
`evdev_push_abs` are collected as `(code, value)` pairs and `evdev_sync` as a
boolean flag of the call. -/

/-- The fields of `struct imt_softc` that `imt_intr` reads or writes. -/
structure ImtDecodeState where
  report_id : Nat
  caps : Nat
  nconts_per_report : Nat
  nconts_todo : Nat
  cont_count_loc : hid_location
  locs : Nat → Nat → hid_location

/-- Per-call oracle for the externals of one interrupt invocation. -/
structure DecodeEnv where
  getData : hid_location → Nat
  getSlot : Nat → Int

/-- Two's-complement conversion of a C `int32_t` value to the `uint32_t`
bit pattern (used when the resolved slot is stored into `slot_data`). -/
def intToU32 (i : Int) : Nat := (i % (U32 : Int)).toNat

/-- Conversion of a `uint32_t` value to the `int32_t` that
`evdev_push_abs` receives. -/
def u32ToInt (n : Nat) : Int :=
  if n % U32 < 2147483648 then (n % U32 : Int) else (n % U32 : Int) - (U32 : Int)

/-- The scratch-buffer transform for an active contact
(src/imt.c:521-529): store the resolved slot, invert the in-range value
(C `!`), and derive orientation / major / minor from the halved width and
height.  Note `WMT_SLOT = WMT_TIP_SWITCH`, `WMT_MAJOR = WMT_WIDTH` and
`WMT_MINOR = WMT_HEIGHT`, so the slot, major and minor writes overwrite the
tip-switch, width and height scratch entries exactly as in C. -/
def imt_transform_slot_data (slot : Int) (sd : Nat → Nat) : Nat → Nat :=
  let sd1 := upd1 sd WMT_SLOT (intToU32 slot)
  let sd2 := upd1 sd1 WMT_IN_RANGE (if sd1 WMT_IN_RANGE = 0 then 1 else 0)
  let width := sd2 WMT_WIDTH / 2
  let height := sd2 WMT_HEIGHT / 2
  let sd3 := upd1 sd2 WMT_ORIENTATION (if height < width then 1 else 0)
  let sd4 := upd1 sd3 WMT_MAJOR (max width height)
  upd1 sd4 WMT_MINOR (min width height)

/-- The decoded scratch values for contact index `cont`
(src/imt.c:491-496): `slot_data` is zeroed, then every supported usage with
a non-empty location is decoded from the buffer. -/
def imt_slot_data (sc : ImtDecodeState) (env : DecodeEnv) (cont : Nat) :
    Nat → Nat :=
  fun usage =>
    if sc.caps.testBit usage ∧ (sc.locs cont usage).size > 0 then
      env.getData (sc.locs cont usage)
    else 0

/-- The events pushed for one contact index (src/imt.c:489-540): resolve the
slot; on overflow push nothing; for an active contact (tip switch non-zero
and confidence not reported as zero) push every supported channel with a
defined event code, after the scratch transform; otherwise push the slot and
the `-1` tracking id. -/
def imt_contact_events (sc : ImtDecodeState) (env : DecodeEnv) (cont : Nat) :
    List (Nat × Int) :=
  let sd := imt_slot_data sc env cont
  let slot := env.getSlot (sd WMT_CONTACTID)
  if slot = -1 then []
  else if sd WMT_TIP_SWITCH ≠ 0 ∧
      ¬(sc.caps.testBit WMT_CONFIDENCE ∧ sd WMT_CONFIDENCE = 0) then
    let sd' := imt_transform_slot_data slot sd
    (List.range WMT_N_USAGES).filterMap fun usage =>
      if sc.caps.testBit usage ∧ (wmt_hid_map usage).code ≠ WMT_NO_CODE then
        some ((wmt_hid_map usage).code, u32ToInt (sd' usage))
      else none
  else [(ABS_MT_SLOT, slot), (ABS_MT_TRACKING_ID, -1)]

/-- Result of one `imt_intr` call: the updated session state, the events
pushed, whether `evdev_sync` was called, and the number of contacts
processed in this call (the second value of the local `cont_count`,
`MIN(sc->nconts_todo, sc->nconts_per_report)`). -/
structure IntrResult where
  state : ImtDecodeState
  events : List (Nat × Int)
  sync : Bool
  processed : Nat

/-- `imt_intr` (src/imt.c:423-545).  Reports with a non-matching id are
ignored; a non-zero decoded contact count replaces `nconts_todo`; the number
of contacts decoded in this call is `MIN(nconts_todo, nconts_per_report)`;
afterwards `nconts_todo` is decremented by that number and `evdev_sync` runs
exactly when it reaches (or stays at) zero. -/
def imt_intr (sc : ImtDecodeState) (env : DecodeEnv) (id : Nat) :
    IntrResult :=
  if sc.report_id ≠ id then ⟨sc, [], false, 0⟩
  else
    let cont_count := env.getData sc.cont_count_loc
    let todo := if cont_count ≠ 0 then cont_count else sc.nconts_todo
    let nproc := min todo sc.nconts_per_report
    let events :=
      (List.range nproc).flatMap fun cont =>
        imt_contact_events { sc with nconts_todo := todo } env cont
    let todo' := todo - nproc
    ⟨{ sc with nconts_todo := todo' }, events, todo' == 0, nproc⟩

/-! ## Feature Refinement (`wmt_cont_max_parse`, src/imt.c:837-856)

The decode `hid_get_data_unsigned(r_ptr, r_len, &sc->cont_max_loc)` is
abstracted into the `cont_count_max` parameter (a `uint32_t` value); the
function returns the new `sc->ai[WMT_SLOT].max`. -/

/-- `wmt_cont_max_parse`: clamp the decoded contact-count maximum to
`MAX_MT_SLOTS`; if the clamped value is non-zero and differs from
`ai[WMT_SLOT].max + 1` (a `uint32_t` vs `int32_t` comparison, performed after
converting the right side to `uint32_t`), override `ai[WMT_SLOT].max` with
the clamped value minus one. -/
def wmt_cont_max_parse (cont_count_max : Nat) (slot_max : Int) : Int :=
  let c := if MAX_MT_SLOTS < cont_count_max then MAX_MT_SLOTS else cont_count_max
  if c ≠ 0 ∧ c ≠ intToU32 (slot_max + 1) then (c : Int) - 1 else slot_max

/-! ## Mode Selector guard (`imt_set_input_mode`, src/imt.c:858-880)

Only the control flow around the `EINVAL` guard is modelled; the read-modify-
write I/O is abstracted: a call either returns `EINVAL` from the guard or
performs the read-modify-write and returns the result of
`iichid_set_report`. -/

/-- Outcome of `imt_set_input_mode`: either the `EINVAL` early return, or
the read-modify-write path completing with `iichid_set_report`'s result. -/
inductive SetInputModeOutcome where
  | einval
  | rmw (set_report_result : Nat)
deriving DecidableEq, Repr

/-- `imt_set_input_mode` (src/imt.c:858-880): the guard is
`sc->input_mode_rlen == 0 && sc->input_mode_rlen > WMT_BSIZE`. -/
def imt_set_input_mode (input_mode_rlen : Nat) (set_report_result : Nat) :
    SetInputModeOutcome :=
  if input_mode_rlen = 0 ∧ WMT_BSIZE < input_mode_rlen then .einval
  else .rmw set_report_result

/-! ## Descriptor Analyzer pass 1 (`wmt_hid_parse`, src/imt.c:612-659)

The feature-kind walk.  The external tokenizer delivers collection and
endcollection markers plus feature items; other kinds fall into the switch
default and leave the state unchanged, so the fold can simply dispatch on
the item kind. -/

/-- Pass-1 state: the locals of `wmt_hid_parse` mutated by the feature walk.
`cont_count_max` is the C `int32_t` local. -/
structure Pass1State where
  touch_coll : Bool
  conf_coll : Bool
  cont_count_max : Int
  cont_max_rid : Nat
  thqa_cert_rid : Nat
  input_mode_rid : Nat
  cont_max_loc : hid_location
  input_mode_loc : hid_location
deriving Repr

def pass1Init : Pass1State :=
  ⟨false, false, 0, 0, 0, 0, ⟨0, 0, 0⟩, ⟨0, 0, 0⟩⟩

/-- One step of the feature walk (the `switch` at src/imt.c:615-657).
`probe` is `sc == NULL`: in probe mode the two location recordings are
skipped, exactly as the `sc != NULL` guards do.  Note the faithfully
reproduced control flow of the `hid_endcollection` case
(src/imt.c:627-633): the branch clearing `conf_coll` sits after an
unconditional `break` and is therefore dead code — `conf_coll` is never
cleared. -/
def pass1_step (probe : Bool) (s : Pass1State) (hi : hid_item) :
    Pass1State :=
  match hi.kind with
  | .hid_collection =>
    let s := if hi.collevel = 1 ∧
        hi.usage = HID_USAGE2 HUP_DIGITIZERS HUD_TOUCHSCREEN then
      { s with touch_coll := true } else s
    let s := if hi.collevel = 1 ∧
        hi.usage = HID_USAGE2 HUP_DIGITIZERS HUD_TOUCHPAD then
      { s with touch_coll := true } else s
    if hi.collevel = 1 ∧ hi.usage = HID_USAGE2 HUP_DIGITIZERS HUD_CONFIG then
      { s with conf_coll := true } else s
  | .hid_endcollection =>
    if hi.collevel = 0 ∧ s.touch_coll then { s with touch_coll := false }
    else s
  | .hid_feature =>
    if hi.collevel = 1 ∧ s.touch_coll ∧
        hi.usage = HID_USAGE2 HUP_MICROSOFT HUMS_THQA_CERT then
      { s with thqa_cert_rid := hi.report_ID }
    else
      let s := if hi.collevel = 1 ∧ s.touch_coll ∧ WMT_HI_ABSOLUTE hi ∧
          hi.usage = HID_USAGE2 HUP_DIGITIZERS HUD_CONTACT_MAX then
        { s with cont_count_max := hi.logical_maximum,
                 cont_max_rid := hi.report_ID,
                 cont_max_loc := if probe then s.cont_max_loc else hi.loc }
      else s
      if s.conf_coll ∧ WMT_HI_ABSOLUTE hi ∧
          hi.usage = HID_USAGE2 HUP_DIGITIZERS HUD_INPUT_MODE then
        { s with input_mode_rid := hi.report_ID,
                 input_mode_loc := if probe then s.input_mode_loc else hi.loc }
      else s
  | _ => s

/-- The complete feature walk. -/
def pass1 (probe : Bool) (items : List hid_item) : Pass1State :=
  items.foldl (pass1_step probe) pass1Init

/-! ## Descriptor Analyzer pass 2 (`wmt_hid_parse`, src/imt.c:665-766)

The input-kind walk.  Probe mode (`sc == NULL`) is the `probe = true`
instance; attach mode records locations and axis bounds as well. -/

/-- Pass-2 state: the locals of `wmt_hid_parse` mutated by the input walk
plus the softc tables written in attach mode. -/
structure Pass2State where
  touch_coll : Bool
  finger_coll : Bool
  cont : Nat
  type : Nat
  caps : Nat
  report_id : Nat
  cont_count_found : Bool
  scan_time_found : Bool
  cont_count_loc : hid_location
  locs : Nat → Nat → hid_location
  ai : Nat → wmt_absinfo

def pass2Init : Pass2State where
  touch_coll := false
  finger_coll := false
  cont := 0
  type := 0
  caps := 0
  report_id := 0
  cont_count_found := false
  scan_time_found := false
  cont_count_loc := ⟨0, 0, 0⟩
  locs := fun _ _ => ⟨0, 0, 0⟩
  ai := fun _ => ⟨0, 0, 0⟩

/-- The usage-matching loop in probe mode (src/imt.c:728-735): find the
first channel index whose usage equals the item's; skip indexes already in
`caps` (`continue`), otherwise set the bit and stop.  The first argument is
the remaining iteration count (`WMT_N_USAGES - i`). -/
def wmt_match_loop_probe (hi : hid_item) : Nat → Nat → Pass2State →
    Pass2State
  | 0, _, s => s
  | fuel + 1, i, s =>
    if hi.usage = (wmt_hid_map i).usage then
      if s.caps.testBit i then wmt_match_loop_probe hi fuel (i + 1) s
      else { s with caps := s.caps ||| (1 <<< i) }
    else wmt_match_loop_probe hi fuel (i + 1) s

/-- The usage-matching loop in attach mode (src/imt.c:728-760): skip
channel indexes whose location for this contact is already recorded
(`continue` — this is what lets the shared X/Y usages bind to both the
position and the tool channel); record the location; for contact 0 also set
the capability bit and record the axis bounds; then stop. -/
def wmt_match_loop_sc (hi : hid_item) : Nat → Nat → Pass2State → Pass2State
  | 0, _, s => s
  | fuel + 1, i, s =>
    if hi.usage = (wmt_hid_map i).usage then
      if (s.locs s.cont i).size ≠ 0 then wmt_match_loop_sc hi fuel (i + 1) s
      else
        let s1 := { s with locs := upd2 s.locs s.cont i hi.loc }
        if 0 < s.cont then s1
        else
          { s1 with
            caps := s1.caps ||| (1 <<< i),
            ai := upd1 s1.ai i
              ⟨hi.logical_minimum, hi.logical_maximum, hi.res⟩ }
    else wmt_match_loop_sc hi fuel (i + 1) s

/-- One step of the input walk (the `switch` at src/imt.c:670-764).
`probe` is `sc == NULL`. -/
def pass2_step (probe : Bool) (s : Pass2State) (hi : hid_item) :
    Pass2State :=
  match hi.kind with
  | .hid_collection =>
    let s := if hi.collevel = 1 ∧
        hi.usage = HID_USAGE2 HUP_DIGITIZERS HUD_TOUCHSCREEN then
      { s with touch_coll := true, type := HUD_TOUCHSCREEN } else s
    if hi.collevel = 1 ∧ hi.usage = HID_USAGE2 HUP_DIGITIZERS HUD_TOUCHPAD then
      { s with touch_coll := true, type := HUD_TOUCHPAD }
    else if s.touch_coll ∧ hi.collevel = 2 ∧
        (s.report_id = 0 ∨ s.report_id = hi.report_ID) ∧
        hi.usage = HID_USAGE2 HUP_DIGITIZERS HUD_FINGER then
      { s with finger_coll := true }
    else s
  | .hid_endcollection =>
    if hi.collevel = 1 ∧ s.finger_coll then
      { s with finger_coll := false, cont := s.cont + 1 }
    else if hi.collevel = 0 ∧ s.touch_coll then { s with touch_coll := false }
    else s
  | .hid_input =>
    if WMT_HI_ABSOLUTE hi ∧ s.touch_coll ∧
        (s.report_id = 0 ∨ s.report_id = hi.report_ID) then
      let s := { s with report_id := hi.report_ID }
      if hi.collevel = 1 ∧
          hi.usage = HID_USAGE2 HUP_DIGITIZERS HUD_CONTACTCOUNT then
        { s with cont_count_found := true,
                 cont_count_loc := if probe then s.cont_count_loc else hi.loc }
      else if hi.collevel = 1 ∧
          hi.usage = HID_USAGE2 HUP_DIGITIZERS HUD_SCAN_TIME then
        { s with scan_time_found := true }
      else if ¬s.finger_coll ∨ hi.collevel ≠ 2 then s
      else if probe ∧ 0 < s.cont then s
      else if MAX_MT_SLOTS ≤ s.cont then s
      else if probe then wmt_match_loop_probe hi WMT_N_USAGES 0 s
      else wmt_match_loop_sc hi WMT_N_USAGES 0 s
    else s
  | _ => s

/-- The input walk from an arbitrary start state (used by the invariant
lemmas). -/
def pass2_from (probe : Bool) (s : Pass2State) (items : List hid_item) :
    Pass2State :=
  items.foldl (pass2_step probe) s

/-- The complete input walk. -/
def pass2 (probe : Bool) (items : List hid_item) : Pass2State :=
  pass2_from probe pass2Init items

/-- The required-usage validation loop (src/imt.c:771-774): every channel
marked required must be present in `caps`. -/
def wmt_required_ok (caps : Nat) : Bool :=
  (List.range WMT_N_USAGES).all fun i =>
    !(wmt_hid_map i).required || caps.testBit i

/-- The Device Profile published by a successful attach-mode parse: the
softc fields assigned at src/imt.c:785-821 (plus the location tables and
axis table filled during the walk).  Rejected descriptors publish nothing. -/
structure ImtProfile where
  type : Nat
  report_id : Nat
  caps : Nat
  isize : Nat
  nconts_per_report : Nat
  cont_max_rid : Nat
  thqa_cert_rid : Nat
  input_mode_rid : Nat
  cont_max_rlen : Nat
  thqa_cert_rlen : Nat
  input_mode_rlen : Nat
  cont_max_loc : hid_location
  input_mode_loc : hid_location
  cont_count_loc : hid_location
  ai : Nat → wmt_absinfo
  locs : Nat → Nat → hid_location
deriving Inhabited

/-- `wmt_hid_parse` (src/imt.c:588-835) for both modes at once: the first
component is the C return value (`0` on rejection, else the collection
type), the second the published Device Profile (`none` in probe mode and on
every rejection path — the profile fields are assigned only after all
validation checks pass). -/
def wmt_hid_parse (probe : Bool) (items : List hid_item) :
    Nat × Option ImtProfile :=
  let p1 := pass1 probe items
  if p1.cont_max_rid = 0 then (0, none)
  else
    let s2 := pass2 probe items
    if ¬s2.cont_count_found ∨ ¬s2.scan_time_found ∨ s2.cont = 0 then (0, none)
    else if ¬wmt_required_ok s2.caps then (0, none)
    else if probe then (s2.type, none)
    else
      let ccm0 : Int :=
        if p1.cont_count_max < 1 then (s2.cont : Int) else p1.cont_count_max
      let ccm : Int :=
        if (MAX_MT_SLOTS : Int) < ccm0 then (MAX_MT_SLOTS : Int) else ccm0
      let ai1 := upd1 s2.ai WMT_SLOT ⟨0, ccm - 1, 0⟩
      let orient := s2.caps.testBit WMT_WIDTH ∧ s2.caps.testBit WMT_HEIGHT
      let caps1 := if orient then s2.caps ||| (1 <<< WMT_ORIENTATION)
        else s2.caps
      let ai2 := if orient then
          upd1 ai1 WMT_ORIENTATION { ai1 WMT_ORIENTATION with max := 1 }
        else ai1
      (s2.type, some
        { type := s2.type
          report_id := s2.report_id
          caps := caps1
          isize := wmt_hid_report_size items .hid_input s2.report_id
          nconts_per_report := s2.cont
          cont_max_rid := p1.cont_max_rid
          thqa_cert_rid := p1.thqa_cert_rid
          input_mode_rid := p1.input_mode_rid
          cont_max_rlen :=
            wmt_hid_report_size items .hid_feature p1.cont_max_rid
          thqa_cert_rlen := if 0 < p1.thqa_cert_rid then
              wmt_hid_report_size items .hid_feature p1.thqa_cert_rid
            else 0
          input_mode_rlen := if 0 < p1.input_mode_rid then
              wmt_hid_report_size items .hid_feature p1.input_mode_rid
            else 0
          cont_max_loc := p1.cont_max_loc
          input_mode_loc := p1.input_mode_loc
          cont_count_loc := s2.cont_count_loc
          ai := ai2
          locs := s2.locs })

/-! ## Concrete descriptor streams and decoder states

Small concrete inputs used to evaluate the embedded code. -/

/-- A depth-1 touchscreen collection marker. -/
def itTouchColl : hid_item :=
  ⟨.hid_collection, 1, HID_USAGE2 HUP_DIGITIZERS HUD_TOUCHSCREEN, 0, 0, 0, 0,
    ⟨0, 0, 0⟩, 0⟩

/-- A contact-count-maximum feature item (report id 2, logical maximum 3). -/
def itContMaxFeat : hid_item :=
  ⟨.hid_feature, 1, HID_USAGE2 HUP_DIGITIZERS HUD_CONTACT_MAX, 2, 2, 0, 3,
    ⟨8, 1, 0⟩, 0⟩

/-- A depth-2 finger collection marker (report id 1). -/
def itFingerColl : hid_item :=
  ⟨.hid_collection, 2, HID_USAGE2 HUP_DIGITIZERS HUD_FINGER, 0, 1, 0, 0,
    ⟨0, 0, 0⟩, 0⟩

/-- A tip-switch input field. -/
def itTip : hid_item :=
  ⟨.hid_input, 2, HID_USAGE2 HUP_DIGITIZERS HUD_TIP_SWITCH, 2, 1, 0, 1,
    ⟨1, 1, 0⟩, 0⟩

/-- An X position input field. -/
def itX : hid_item :=
  ⟨.hid_input, 2, HID_USAGE2 HUP_GENERIC_DESKTOP HUG_X, 2, 1, 0, 1024,
    ⟨16, 1, 8⟩, 0⟩

/-- A Y position input field. -/
def itY : hid_item :=
  ⟨.hid_input, 2, HID_USAGE2 HUP_GENERIC_DESKTOP HUG_Y, 2, 1, 0, 768,
    ⟨16, 1, 24⟩, 0⟩

/-- A contact-id input field. -/
def itCid : hid_item :=
  ⟨.hid_input, 2, HID_USAGE2 HUP_DIGITIZERS HUD_CONTACTID, 2, 1, 0, 15,
    ⟨8, 1, 40⟩, 0⟩

/-- Close of the finger collection (back at depth 1). -/
def itFingerEnd : hid_item := ⟨.hid_endcollection, 1, 0, 0, 1, 0, 0, ⟨0, 0, 0⟩, 0⟩

/-- A contact-count input field at depth 1. -/
def itContCount : hid_item :=
  ⟨.hid_input, 1, HID_USAGE2 HUP_DIGITIZERS HUD_CONTACTCOUNT, 2, 1, 0, 10,
    ⟨8, 1, 48⟩, 0⟩

/-- A scan-time input field at depth 1. -/
def itScanTime : hid_item :=
  ⟨.hid_input, 1, HID_USAGE2 HUP_DIGITIZERS HUD_SCAN_TIME, 2, 1, 0, 65535,
    ⟨16, 1, 56⟩, 0⟩

/-- Close of the top-level collection (back at depth 0). -/
def itTopEnd : hid_item := ⟨.hid_endcollection, 0, 0, 0, 1, 0, 0, ⟨0, 0, 0⟩, 0⟩

/-- A complete valid touchscreen descriptor stream: one finger with the four
required channels, contact count, scan time, and a contact-count-maximum
feature declaring 3. -/
def demoItems : List hid_item :=
  [itTouchColl, itContMaxFeat, itFingerColl, itTip, itX, itY, itCid,
   itFingerEnd, itContCount, itScanTime, itTopEnd]

/-- `demoItems` with the contact-id input field removed: a descriptor whose
contact-id required channel never occurs. -/
def demoItemsNoCid : List hid_item :=
  [itTouchColl, itContMaxFeat, itFingerColl, itTip, itX, itY,
   itFingerEnd, itContCount, itScanTime, itTopEnd]

/-- The Device Profile produced by the attach-mode parse of `demoItems`. -/
def demoProf : ImtProfile :=
  match (wmt_hid_parse false demoItems).2 with
  | some p => p
  | none => default

/-- A depth-1 configuration collection marker. -/
def itConfColl : hid_item :=
  ⟨.hid_collection, 1, HID_USAGE2 HUP_DIGITIZERS HUD_CONFIG, 0, 0, 0, 0,
    ⟨0, 0, 0⟩, 0⟩

/-- Close of a collection at depth 0 with no report id. -/
def itTopEnd0 : hid_item := ⟨.hid_endcollection, 0, 0, 0, 0, 0, 0, ⟨0, 0, 0⟩, 0⟩

/-- Feature-walk stream: open a configuration collection, then close it. -/
def c5ConfItems : List hid_item := [itConfColl, itTopEnd0]

/-- Feature-walk stream: open a touch collection, then close it. -/
def c5TouchItems : List hid_item := [itTouchColl, itTopEnd0]

/-- An absolute X input field of zero bit width (report id 1). -/
def itXZeroWidth : hid_item :=
  ⟨.hid_input, 2, HID_USAGE2 HUP_GENERIC_DESKTOP HUG_X, 2, 1, 0, 100,
    ⟨0, 0, 0⟩, 0⟩

/-- Input-walk stream with two zero-width X fields inside a finger
collection: probe and attach mode compute different capability sets on it. -/
def c9Items : List hid_item :=
  [itTouchColl, itFingerColl, itXZeroWidth, itXZeroWidth]

/-- An item whose end bit position `pos + size * count` equals `2^32`,
wrapping to `0` in the `uint32_t` arithmetic of the calculator. -/
def itWrap : hid_item :=
  ⟨.hid_input, 0, 0, 0, 7, 0, 0, ⟨2147483648, 2, 0⟩, 0⟩

/-- Decoder state for the in-range experiments: capabilities are tip switch
(bit 0) and in-range (bit 8); tip switch lives at bit 0, in-range at bit 1,
contact count at bit 16 of the report. -/
def c8state : ImtDecodeState where
  report_id := 1
  caps := 257
  nconts_per_report := 1
  nconts_todo := 0
  cont_count_loc := ⟨8, 1, 16⟩
  locs := fun c u =>
    if c = 0 ∧ u = WMT_TIP_SWITCH then ⟨1, 1, 0⟩
    else if c = 0 ∧ u = WMT_IN_RANGE then ⟨1, 1, 1⟩
    else ⟨0, 0, 0⟩

/-- Decode oracle for `c8state`: tip switch reads 1, contact count reads 1,
the in-range field reads `v`; the allocator resolves every contact id to
slot 0. -/
def c8env (v : Nat) : DecodeEnv where
  getData := fun loc =>
    if loc.pos = 0 then 1 else if loc.pos = 16 then 1
    else if loc.pos = 1 then v else 0
  getSlot := fun _ => 0

/-- An idle decoder session (counter 0) expecting report id 1. -/
def c2state : ImtDecodeState where
  report_id := 1
  caps := 0
  nconts_per_report := 1
  nconts_todo := 0
  cont_count_loc := ⟨8, 1, 0⟩
  locs := fun _ _ => ⟨0, 0, 0⟩

/-- A report buffer whose every field decodes to zero. -/
def c2env : DecodeEnv where
  getData := fun _ => 0
  getSlot := fun _ => -1

/-- The simulation relation between a probe-mode (`sc == NULL`) and an
attach-mode input-walk state: all validation-relevant scalars agree, the
capability bits of the required channels agree, and on the attach side a
recorded non-zero-width location in contact row 0 implies its capability
bit (the attach-mode loop records a location exactly when it marks the
capability for contact 0). -/
def P2Rel (sp sa : Pass2State) : Prop :=
  sp.touch_coll = sa.touch_coll ∧ sp.finger_coll = sa.finger_coll ∧
  sp.cont = sa.cont ∧ sp.type = sa.type ∧ sp.report_id = sa.report_id ∧
  sp.cont_count_found = sa.cont_count_found ∧
  sp.scan_time_found = sa.scan_time_found ∧
  (∀ i, i < WMT_N_USAGES → (wmt_hid_map i).required = true →
    sp.caps.testBit i = sa.caps.testBit i) ∧
  (∀ t, (sa.locs 0 t).size ≠ 0 → sa.caps.testBit t = true)

/-- A report buffer whose every field decodes to three. -/
def c1env3 : DecodeEnv where
  getData := fun _ => 3
  getSlot := fun _ => -1

/-- A report buffer whose every field decodes to zero (hybrid
continuation packet). -/
def c1env0 : DecodeEnv where
  getData := fun _ => 0
  getSlot := fun _ => -1

/-! ## Theorems -/

/-- C10: `imt_set_input_mode` never returns `EINVAL` for any input: its
validity guard requires `input_mode_rlen == 0` and
`input_mode_rlen > WMT_BSIZE` to hold simultaneously, which no value
satisfies, so the `EINVAL` branch is unreachable and the function proceeds
to the read-modify-write sequence for every input-mode report length,
including lengths exceeding `WMT_BSIZE`. -/
theorem set_input_mode_never_einval (rlen r : Nat) :
    imt_set_input_mode rlen r = .rmw r ∧ ¬(rlen = 0 ∧ WMT_BSIZE < rlen) := by
  have hguard : ¬(rlen = 0 ∧ WMT_BSIZE < rlen) := by
    rintro ⟨h0, h1⟩
    omega
  exact ⟨by rw [imt_set_input_mode, if_neg hguard], hguard⟩

/-- Closed form of `wmt_cont_max_parse` when `m + 1` fits in `uint32_t`:
the comparison value is `min v MAX_MT_SLOTS` and the `intToU32` conversion
of `m + 1` is its `toNat`. -/
theorem wmt_cont_max_parse_eq_min (v : Nat) (m : Int) (h0 : 0 ≤ m)
    (h1 : m + 1 < (U32 : Int)) :
    wmt_cont_max_parse v m =
      if min v MAX_MT_SLOTS ≠ 0 ∧ min v MAX_MT_SLOTS ≠ (m + 1).toNat
      then ((min v MAX_MT_SLOTS : Nat) : Int) - 1 else m := by
  have hto : intToU32 (m + 1) = (m + 1).toNat := by
    rw [intToU32, Int.emod_eq_of_lt (by omega) h1]
  have hclamp : (if MAX_MT_SLOTS < v then MAX_MT_SLOTS else v)
      = min v MAX_MT_SLOTS := by
    split <;> omega
  rw [wmt_cont_max_parse]
  simp only [hto, hclamp]

/-- C7: Feature Refinement: a decoded contact-count-maximum of `0` leaves
the slot-index axis maximum unchanged; a decoded value exceeding
`MAX_MT_SLOTS` behaves exactly as the clamped value `MAX_MT_SLOTS`; a
non-zero clamped value differing from the descriptor-derived value
(`slot_max + 1`) overrides the maximum with the clamped value minus one (and
an equal value leaves it unchanged). -/
theorem cont_max_parse_clamp_override (v : Nat) (m : Int) (h0 : 0 ≤ m)
    (h1 : m + 1 < (U32 : Int)) :
    (v = 0 → wmt_cont_max_parse v m = m) ∧
    (MAX_MT_SLOTS < v →
      wmt_cont_max_parse v m = wmt_cont_max_parse MAX_MT_SLOTS m) ∧
    (min v MAX_MT_SLOTS ≠ 0 → ((min v MAX_MT_SLOTS : Nat) : Int) ≠ m + 1 →
      wmt_cont_max_parse v m = ((min v MAX_MT_SLOTS : Nat) : Int) - 1) ∧
    (((min v MAX_MT_SLOTS : Nat) : Int) = m + 1 →
      wmt_cont_max_parse v m = m) := by
  rw [wmt_cont_max_parse_eq_min v m h0 h1,
    wmt_cont_max_parse_eq_min MAX_MT_SLOTS m h0 h1]
  refine ⟨?_, ?_, ?_, ?_⟩
  · intro hv
    subst hv
    norm_num [MAX_MT_SLOTS]
  · intro hv
    have h64 : min v MAX_MT_SLOTS = MAX_MT_SLOTS := by omega
    have h64a : min MAX_MT_SLOTS MAX_MT_SLOTS = MAX_MT_SLOTS := by omega
    rw [h64, h64a]
  · intro hne hdiff
    rw [if_pos ⟨hne, by omega⟩]
  · intro heq
    rw [if_neg]
    rintro ⟨-, hbad⟩
    omega

/-- Witness for C7 at concrete inputs: decoded value 70 with a current
maximum of 4 is clamped to 64 and overrides the maximum with 63; decoded 0
leaves it unchanged. -/
theorem cont_max_parse_clamp_override_witness :
    wmt_cont_max_parse 70 4 = 63 ∧ wmt_cont_max_parse 0 4 = 4 := by
  constructor
  · have h := (cont_max_parse_clamp_override 70 4 (by norm_num)
      (by norm_num [U32])).2.2.1 (by norm_num [MAX_MT_SLOTS])
      (by norm_num [MAX_MT_SLOTS])
    simpa [MAX_MT_SLOTS] using h
  · exact (cont_max_parse_clamp_override 0 4 (by norm_num)
      (by norm_num [U32])).1 rfl

/-- C5 (evaluation at the failing input): the feature walk's depth-1
endcollection handling is asymmetric — after a configuration collection
closes at depth 0 the `conf_coll` flag is still set (the clearing branch at
src/imt.c:631-632 sits after an unconditional `break` and is dead code),
while the touch-family flag is cleared by the same stream shape. -/
theorem conf_coll_not_cleared_at_depth0 :
    (pass1 false c5ConfItems).conf_coll = true ∧
    (pass1 false c5TouchItems).touch_coll = false := by decide

/-- C1: Hybrid delivery: starting idle (`nconts_todo = 0`) with one slot
per report, three matching-id buffers whose contact counts decode to 3, 0,
0 emit the sync signal only on the third call, process exactly 3 contacts
in total, and the zero-count buffers do not reset the counter (it steps
3 → 2 → 1 → 0). -/
theorem hybrid_3_0_0_sync_after_three (s : ImtDecodeState)
    (e1 e2 e3 : DecodeEnv)
    (h0 : s.nconts_todo = 0) (h1 : s.nconts_per_report = 1)
    (hc1 : e1.getData s.cont_count_loc = 3)
    (hc2 : e2.getData s.cont_count_loc = 0)
    (hc3 : e3.getData s.cont_count_loc = 0) :
    (imt_intr s e1 s.report_id).sync = false ∧
    (imt_intr (imt_intr s e1 s.report_id).state e2 s.report_id).sync
      = false ∧
    (imt_intr (imt_intr (imt_intr s e1 s.report_id).state e2
        s.report_id).state e3 s.report_id).sync = true ∧
    (imt_intr s e1 s.report_id).processed +
      (imt_intr (imt_intr s e1 s.report_id).state e2 s.report_id).processed +
      (imt_intr (imt_intr (imt_intr s e1 s.report_id).state e2
        s.report_id).state e3 s.report_id).processed = 3 ∧
    (imt_intr s e1 s.report_id).state.nconts_todo = 2 ∧
    (imt_intr (imt_intr s e1 s.report_id).state e2
      s.report_id).state.nconts_todo = 1 := by
  simp [imt_intr, h0, h1, hc1, hc2, hc3]

/-- Witness for C1 at a concrete session and three concrete buffers. -/
theorem hybrid_3_0_0_sync_after_three_witness :
    (imt_intr c2state c1env3 c2state.report_id).sync = false ∧
    (imt_intr (imt_intr c2state c1env3 c2state.report_id).state c1env0
      c2state.report_id).sync = false ∧
    (imt_intr (imt_intr (imt_intr c2state c1env3 c2state.report_id).state
      c1env0 c2state.report_id).state c1env0 c2state.report_id).sync
      = true ∧
    (imt_intr c2state c1env3 c2state.report_id).processed +
      (imt_intr (imt_intr c2state c1env3 c2state.report_id).state c1env0
        c2state.report_id).processed +
      (imt_intr (imt_intr (imt_intr c2state c1env3
        c2state.report_id).state c1env0 c2state.report_id).state c1env0
        c2state.report_id).processed = 3 ∧
    (imt_intr c2state c1env3 c2state.report_id).state.nconts_todo = 2 ∧
    (imt_intr (imt_intr c2state c1env3 c2state.report_id).state c1env0
      c2state.report_id).state.nconts_todo = 1 :=
  hybrid_3_0_0_sync_after_three c2state c1env3 c1env0 c1env0
    rfl rfl rfl rfl rfl

/-- C2 (counterexample to the claim as stated): a matching-id report
arriving while the session is already idle (`nconts_todo = 0`) with a zero
contact-count field leaves the counter at 0 — no `Draining → Idle`
transition happens — and yet `evdev_sync` IS called: src/imt.c:542-544
tests the post-decrement counter, not the transition. -/
theorem idle_zero_count_emits_sync :
    c2state.nconts_todo = 0 ∧
    (imt_intr c2state c2env 1).state.nconts_todo = 0 ∧
    (imt_intr c2state c2env 1).sync = true := by decide

/-- C2 (amended): for a matching-id call, the sync signal is emitted iff
the effective contact total (the decoded count if non-zero, else the old
counter) is at most `nconts_per_report` — equivalently iff the call ends
with the counter at 0; the number processed is the minimum of the two; the
counter decreases by exactly that number (zero-count packets do not reset
it); and in particular an idle session receiving a zero-count packet keeps
its counter at 0 but does emit sync. -/
theorem sync_iff_counter_drained (s : ImtDecodeState) (env : DecodeEnv) :
    ((imt_intr s env s.report_id).sync = true ↔
      (if env.getData s.cont_count_loc ≠ 0 then env.getData s.cont_count_loc
        else s.nconts_todo) ≤ s.nconts_per_report) ∧
    (imt_intr s env s.report_id).processed =
      min (if env.getData s.cont_count_loc ≠ 0 then
        env.getData s.cont_count_loc else s.nconts_todo)
        s.nconts_per_report ∧
    (imt_intr s env s.report_id).state.nconts_todo =
      (if env.getData s.cont_count_loc ≠ 0 then env.getData s.cont_count_loc
        else s.nconts_todo) - (imt_intr s env s.report_id).processed ∧
    (s.nconts_todo = 0 → env.getData s.cont_count_loc = 0 →
      (imt_intr s env s.report_id).state.nconts_todo = 0 ∧
      (imt_intr s env s.report_id).sync = true) := by
  refine ⟨?_, ?_, ?_, ?_⟩
  · simp [imt_intr]
    rw [inf_eq_min]
    omega
  · simp [imt_intr]
  · simp [imt_intr]
  · intro h1 h2
    simp [imt_intr, h1, h2]

/-- Witness for C2's amended statement at a concrete idle session and
zero-count buffer. -/
theorem sync_iff_counter_drained_witness :
    (imt_intr c2state c2env c2state.report_id).state.nconts_todo = 0 ∧
    (imt_intr c2state c2env c2state.report_id).sync = true :=
  (sync_iff_counter_drained c2state c2env).2.2.2 rfl rfl

/-- C9 (counterexample to the claim as stated): probe mode and attach mode
do not always compute the same capability set.  On a finger collection
containing two zero-bit-width absolute X fields, probe mode marks both the
X channel and the tool-X channel (first-match-wins skips an
already-supported index), while attach mode re-matches the X channel both
times because its recorded location still has zero width, and never marks
tool-X. -/
theorem probe_attach_caps_differ :
    (pass2 true c9Items).caps = 1040 ∧ (pass2 false c9Items).caps = 16 ∧
    (pass2 true c9Items).caps ≠ (pass2 false c9Items).caps := by decide

/-- C3 (counterexample to the claim as stated): on an item whose end bit
position `offset + width*count` equals `2^32`, the `uint32_t` computation
wraps to 0 and the calculator returns 0 bytes, while the claimed formula
`ceil((max_end − min_start)/8)` yields `2^29`. -/
theorem report_size_wrap_differs_from_spec :
    wmt_hid_report_size [itWrap] .hid_input 7 = 0 ∧
    report_size_spec [itWrap] .hid_input 7 = 536870912 ∧
    wmt_hid_report_size [itWrap] .hid_input 7 ≠
      report_size_spec [itWrap] .hid_input 7 := by decide

/-- C8 (counterexample to the claim as stated): two consecutive calls each
delivering an active report for the same still-touching contact, with
identical buffers (decoded in-range field 0 both times), emit the in-range
value 1 on BOTH calls — a constant, not the claimed alternation 0,1: the
code negates the per-report decoded value (src/imt.c:523), it does not
toggle the previously transmitted value. -/
theorem in_range_constant_on_identical_reports :
    (imt_intr c8state (c8env 0) 1).events.filter
      (fun e => e.1 = ABS_MT_DISTANCE) = [(ABS_MT_DISTANCE, 1)] ∧
    ((imt_intr (imt_intr c8state (c8env 0) 1).state (c8env 0) 1).events.filter
      (fun e => e.1 = ABS_MT_DISTANCE)) = [(ABS_MT_DISTANCE, 1)] := by decide

/-- The events of one decoder call on `c8state` with a non-zero decoded
in-range value: the active contact emits slot 0 and in-range `!v = 0`. -/
theorem c8_events_of_ne (v : Nat) (hv : v ≠ 0) :
    (imt_intr c8state (c8env v) 1).events
      = [(ABS_MT_SLOT, 0), (ABS_MT_DISTANCE, 0)] := by
  simp +decide [imt_intr, imt_contact_events, imt_slot_data,
    imt_transform_slot_data, c8state, c8env, upd1, hv,
    u32ToInt, intToU32, U32, wmt_hid_map, List.range_succ,
    WMT_IN_RANGE, WMT_SLOT, WMT_TIP_SWITCH, WMT_MINOR, WMT_MAJOR,
    WMT_WIDTH, WMT_HEIGHT, WMT_ORIENTATION, WMT_CONTACTID, WMT_CONFIDENCE,
    WMT_X, WMT_Y, WMT_PRESSURE, WMT_TOOL_X, WMT_TOOL_Y, WMT_N_USAGES,
    ABS_MT_SLOT, ABS_MT_DISTANCE, ABS_MT_TOUCH_MAJOR, ABS_MT_TOUCH_MINOR,
    ABS_MT_ORIENTATION, ABS_MT_POSITION_X, ABS_MT_POSITION_Y,
    ABS_MT_TRACKING_ID, ABS_MT_PRESSURE, ABS_MT_TOOL_X, ABS_MT_TOOL_Y,
    WMT_NO_CODE, ABS_MAX]

/-- C8 (amended): the in-range scratch value emitted for an active contact
is the logical negation of the in-range value decoded from the current
report buffer (1 if the decoded field is 0, else 0) — not a toggle of the
previously transmitted value; hence two consecutive active reports for the
same still-touching contact with identical in-range fields emit identical
(not alternating) values. -/
theorem in_range_is_negation_of_decoded :
    (∀ (slot : Int) (sd : Nat → Nat),
      imt_transform_slot_data slot sd WMT_IN_RANGE =
        if sd WMT_IN_RANGE = 0 then 1 else 0) ∧
    (∀ v : Nat,
      (imt_intr c8state (c8env v) 1).events.filter
          (fun e => e.1 = ABS_MT_DISTANCE)
        = [(ABS_MT_DISTANCE, if v = 0 then 1 else 0)] ∧
      (imt_intr (imt_intr c8state (c8env v) 1).state
          (c8env v) 1).events.filter (fun e => e.1 = ABS_MT_DISTANCE)
        = [(ABS_MT_DISTANCE, if v = 0 then 1 else 0)]) := by
  constructor
  · intro slot sd
    simp [imt_transform_slot_data, upd1, WMT_IN_RANGE, WMT_SLOT,
      WMT_TIP_SWITCH, WMT_MINOR, WMT_MAJOR, WMT_WIDTH, WMT_HEIGHT,
      WMT_ORIENTATION]
  · intro v
    have hstate : (imt_intr c8state (c8env v) 1).state = c8state := rfl
    rcases eq_or_ne v 0 with hv | hv
    · subst hv
      exact ⟨by decide, by decide⟩
    · rw [hstate, c8_events_of_ne v hv]
      constructor <;> simp +decide [hv, ABS_MT_DISTANCE, ABS_MT_SLOT]

/-- The paired fold of the size calculator splits into a min-fold of the
(wrapped) start positions and a max-fold of the (wrapped) end positions of
the matching items. -/
theorem report_size_foldl_split (k : hid_kind) (id : Nat) :
    ∀ (items : List hid_item) (a b : Nat),
      items.foldl (wmt_hid_report_size_step k id) (a, b) =
        ((items.filter (sizeMatch k id)).foldl
          (fun x h => min x (h.loc.pos % U32)) a,
         (items.filter (sizeMatch k id)).foldl
          (fun x h => max x ((h.loc.pos + h.loc.size * h.loc.count) % U32))
          b) := by
  intro items
  induction items with
  | nil => intro a b; rfl
  | cons h t ih =>
    intro a b
    by_cases hc : sizeMatch k id h
    · simp only [List.foldl_cons, wmt_hid_report_size_step, if_pos hc,
        List.filter_cons_of_pos hc]
      exact ih _ _
    · simp only [List.foldl_cons, wmt_hid_report_size_step, if_neg hc,
        List.filter_cons_of_neg (by simpa using hc)]
      exact ih _ _

/-- A min-fold over function values never exceeds its starting value. -/
theorem foldl_min_le_init {α : Type} (f : α → Nat) :
    ∀ (l : List α) (a : Nat), l.foldl (fun x h => min x (f h)) a ≤ a := by
  intro l
  induction l with
  | nil => intro a; exact Nat.le_refl a
  | cons h t ih =>
    intro a
    exact Nat.le_trans (ih (min a (f h))) (Nat.min_le_left _ _)

/-- A max-fold over function values is at least its starting value. -/
theorem init_le_foldl_max {α : Type} (f : α → Nat) :
    ∀ (l : List α) (a : Nat), a ≤ l.foldl (fun x h => max x (f h)) a := by
  intro l
  induction l with
  | nil => intro a; exact Nat.le_refl a
  | cons h t ih =>
    intro a
    exact Nat.le_trans (Nat.le_max_left _ _) (ih (max a (f h)))

/-- A max-fold stays below a bound dominating the start and all values. -/
theorem foldl_max_le {α : Type} (f : α → Nat) (B : Nat) :
    ∀ (l : List α) (a : Nat), a ≤ B → (∀ h ∈ l, f h ≤ B) →
      l.foldl (fun x h => max x (f h)) a ≤ B := by
  intro l
  induction l with
  | nil => intro a ha _; exact ha
  | cons h t ih =>
    intro a ha hl
    exact ih _ (Nat.max_le.mpr ⟨ha, hl h (List.mem_cons_self h t)⟩)
      fun x hx => hl x (List.mem_cons_of_mem h hx)

/-- When every element's wrapped value equals its exact value, the wrapped
min-fold equals the exact min-fold (and similarly for max). -/
theorem foldl_congr_of_mem {α : Type} (f g : α → Nat) :
    ∀ (l : List α) (a : Nat), (∀ h ∈ l, f h = g h) →
      (l.foldl (fun x h => min x (f h)) a
        = l.foldl (fun x h => min x (g h)) a) ∧
      (l.foldl (fun x h => max x (f h)) a
        = l.foldl (fun x h => max x (g h)) a) := by
  intro l
  induction l with
  | nil => intro a _; exact ⟨rfl, rfl⟩
  | cons h t ih =>
    intro a hfg
    have h0 : f h = g h := hfg h (List.mem_cons_self h t)
    constructor
    · simp only [List.foldl_cons, h0]
      exact (ih _ fun x hx => hfg x (List.mem_cons_of_mem h hx)).1
    · simp only [List.foldl_cons, h0]
      exact (ih _ fun x hx => hfg x (List.mem_cons_of_mem h hx)).2

/-- C3 (amended): provided no matching item's end bit position
`offset + width*count` exceeds `2^32 − 8` (so none of the `uint32_t`
computations wrap), the calculator returns exactly the specified
`ceil((max_end − min_start)/8)`, and 0 when no item matched (in particular
on the empty stream) or when the computed `max_end < min_start`, with no
underflow and no negative result; with larger end positions the `uint32_t`
arithmetic wraps and the results can differ. -/
theorem report_size_eq_spec_no_overflow (items : List hid_item)
    (k : hid_kind) (id : Nat)
    (hb : ∀ h ∈ items, sizeMatch k id h = true → specEndBit h ≤ U32 - 8) :
    wmt_hid_report_size items k id = report_size_spec items k id := by
  have hbf : ∀ h ∈ items.filter (sizeMatch k id), specEndBit h ≤ U32 - 8 := by
    intro h hm
    rw [List.mem_filter] at hm
    exact hb h hm.1 hm.2
  rw [wmt_hid_report_size, report_size_spec, report_size_foldl_split]
  cases hfilter : items.filter (sizeMatch k id) with
  | nil =>
    decide
  | cons h0 hs =>
    rw [hfilter] at hbf
    have hend0 : specEndBit h0 ≤ U32 - 8 :=
      hbf h0 (List.mem_cons_self h0 hs)
    have hpos0 : h0.loc.pos ≤ U32 - 8 := by
      have := hend0
      rw [specEndBit] at this
      omega
    have hmodAll : ∀ h ∈ h0 :: hs,
        (h.loc.pos + h.loc.size * h.loc.count) % U32 = specEndBit h := by
      intro h hm
      have hx := hbf h hm
      rw [specEndBit] at hx
      rw [specEndBit]
      apply Nat.mod_eq_of_lt
      simp only [U32] at hx ⊢
      omega
    have hmodPos : ∀ h ∈ h0 :: hs, h.loc.pos % U32 = h.loc.pos := by
      intro h hm
      have hx := hbf h hm
      rw [specEndBit] at hx
      apply Nat.mod_eq_of_lt
      simp only [U32] at hx ⊢
      omega
    dsimp only
    simp only [List.foldl_cons]
    rw [(foldl_congr_of_mem (fun h => h.loc.pos % U32) (fun h => h.loc.pos)
        hs _ fun x hx => hmodPos x (List.mem_cons_of_mem h0 hx)).1,
      (foldl_congr_of_mem
        (fun h => (h.loc.pos + h.loc.size * h.loc.count) % U32) specEndBit
        hs _ fun x hx => hmodAll x (List.mem_cons_of_mem h0 hx)).2,
      hmodPos h0 (List.mem_cons_self h0 hs),
      hmodAll h0 (List.mem_cons_self h0 hs)]
    have hposle : h0.loc.pos ≤ U32 - 1 := by
      simp only [U32] at hpos0 ⊢
      omega
    have hminEq : min (U32 - 1) h0.loc.pos = h0.loc.pos :=
      Nat.min_eq_right hposle
    have hmaxEq : max 0 (specEndBit h0) = specEndBit h0 :=
      Nat.max_eq_right (Nat.zero_le _)
    rw [hminEq, hmaxEq]
    have hminLe : hs.foldl (fun x h => min x h.loc.pos) h0.loc.pos
        ≤ h0.loc.pos := foldl_min_le_init _ hs _
    have hmaxGe : specEndBit h0
        ≤ hs.foldl (fun x h => max x (specEndBit h)) (specEndBit h0) :=
      init_le_foldl_max _ hs _
    have hmaxLe : hs.foldl (fun x h => max x (specEndBit h)) (specEndBit h0)
        ≤ U32 - 8 :=
      foldl_max_le _ _ hs _ hend0
        fun x hx => hbf x (List.mem_cons_of_mem h0 hx)
    have hposEnd : h0.loc.pos ≤ specEndBit h0 := by
      rw [specEndBit]
      exact Nat.le_add_right _ _
    have hle : hs.foldl (fun x h => min x h.loc.pos) h0.loc.pos
        ≤ hs.foldl (fun x h => max x (specEndBit h)) (specEndBit h0) :=
      Nat.le_trans hminLe (Nat.le_trans hposEnd hmaxGe)
    have hlt : hs.foldl (fun x h => max x (specEndBit h)) (specEndBit h0)
        - hs.foldl (fun x h => min x h.loc.pos) h0.loc.pos + 7 < U32 := by
      simp only [U32] at hmaxLe ⊢
      omega
    rw [if_neg (by omega), if_neg (by omega), Nat.mod_eq_of_lt hlt]

/-- Witness for C3's amended statement on a concrete well-formed
descriptor stream, where the calculator and the formula agree (9 bytes). -/
theorem report_size_eq_spec_no_overflow_witness :
    wmt_hid_report_size demoItems .hid_input 1
      = report_size_spec demoItems .hid_input 1 ∧
    wmt_hid_report_size demoItems .hid_input 1 = 9 :=
  ⟨report_size_eq_spec_no_overflow demoItems .hid_input 1 (by decide),
   by decide⟩

/-- C6: for every descriptor accepted by attach-mode analysis, the
published slot-index axis is `{min = 0, max = N − 1, res = 0}` where `N` is
the declared contact-count-maximum when `1 ≤ N ≤ MAX_MT_SLOTS`; a
non-positive declared maximum falls back to the number of enclosed finger
collections (then capped like any other value), and a declared maximum
above `MAX_MT_SLOTS` is capped to `MAX_MT_SLOTS` before the subtraction. -/
theorem slot_axis_from_cont_count_max (items : List hid_item)
    (prof : ImtProfile) (h : (wmt_hid_parse false items).2 = some prof) :
    (1 ≤ (pass1 false items).cont_count_max →
      (pass1 false items).cont_count_max ≤ (MAX_MT_SLOTS : Int) →
      prof.ai WMT_SLOT = ⟨0, (pass1 false items).cont_count_max - 1, 0⟩) ∧
    ((pass1 false items).cont_count_max < 1 →
      prof.ai WMT_SLOT =
        ⟨0, min ((pass2 false items).cont : Int) (MAX_MT_SLOTS : Int) - 1,
          0⟩) ∧
    ((MAX_MT_SLOTS : Int) < (pass1 false items).cont_count_max →
      prof.ai WMT_SLOT = ⟨0, (MAX_MT_SLOTS : Int) - 1, 0⟩) := by
  simp only [wmt_hid_parse] at h
  split at h
  · exact absurd h (by simp)
  · split at h
    · exact absurd h (by simp)
    · split at h
      · exact absurd h (by simp)
      · split at h
        · exact absurd ‹false = true› (by decide)
        · dsimp only at h
          rw [Option.some.injEq] at h
          subst h
          dsimp only
          have hai : ∀ (b : Prop) [Decidable b] (g : Nat → wmt_absinfo)
              (v : wmt_absinfo),
              (if b then upd1 (upd1 g WMT_SLOT v) WMT_ORIENTATION
                { (upd1 g WMT_SLOT v) WMT_ORIENTATION with max := 1 }
              else upd1 g WMT_SLOT v) WMT_SLOT = v := by
            intro b _ g v
            split
            · rw [upd1, if_neg (by decide : ¬WMT_SLOT = WMT_ORIENTATION),
                upd1, if_pos rfl]
            · rw [upd1, if_pos rfl]
          refine ⟨?_, ?_, ?_⟩
          · intro hge hle
            simp only [hai]
            rw [if_neg (show ¬(pass1 false items).cont_count_max < 1 by
              omega)]
            rw [if_neg (show ¬(MAX_MT_SLOTS : Int) <
              (pass1 false items).cont_count_max by omega)]
          · intro hlt
            simp only [hai]
            rw [if_pos hlt]
            congr 1
            split <;> omega
          · intro hgt
            simp only [hai]
            rw [if_neg (show ¬(pass1 false items).cont_count_max < 1 by
              omega)]
            rw [if_pos hgt]

/-- Witness for C6: on `demoItems` (declared maximum 3) the published
slot-index axis is `{0, 2, 0}`. -/
theorem slot_axis_from_cont_count_max_witness :
    (wmt_hid_parse false demoItems).2 = some demoProf ∧
    demoProf.ai WMT_SLOT = ⟨0, 2, 0⟩ :=
  ⟨rfl,
   (slot_axis_from_cont_count_max demoItems demoProf rfl).1
     (by decide) (by decide)⟩

/-! ### Lemmas about the usage-matching loops -/

/-- Setting bit `j` makes `testBit j` true. -/
theorem testBit_set_self (c j : Nat) : (c ||| 1 <<< j).testBit j = true := by
  simp [Nat.testBit_or, Nat.shiftLeft_eq, Nat.testBit_two_pow_self]

/-- Setting bit `j` leaves every other bit unchanged. -/
theorem testBit_set_other (c j i : Nat) (h : j ≠ i) :
    (c ||| 1 <<< j).testBit i = c.testBit i := by
  simp [Nat.testBit_or, Nat.shiftLeft_eq, Nat.testBit_two_pow_of_ne h]

/-- The probe-mode usage loop changes nothing but `caps`. -/
theorem match_loop_probe_scalars (hi : hid_item) :
    ∀ (fuel j : Nat) (s : Pass2State),
      (wmt_match_loop_probe hi fuel j s).touch_coll = s.touch_coll ∧
      (wmt_match_loop_probe hi fuel j s).finger_coll = s.finger_coll ∧
      (wmt_match_loop_probe hi fuel j s).cont = s.cont ∧
      (wmt_match_loop_probe hi fuel j s).type = s.type ∧
      (wmt_match_loop_probe hi fuel j s).report_id = s.report_id ∧
      (wmt_match_loop_probe hi fuel j s).cont_count_found
        = s.cont_count_found ∧
      (wmt_match_loop_probe hi fuel j s).scan_time_found
        = s.scan_time_found := by
  intro fuel
  induction fuel with
  | zero => intro j s; exact ⟨rfl, rfl, rfl, rfl, rfl, rfl, rfl⟩
  | succ fuel ih =>
    intro j s
    rw [wmt_match_loop_probe]
    split
    · split
      · exact ih _ _
      · exact ⟨rfl, rfl, rfl, rfl, rfl, rfl, rfl⟩
    · exact ih _ _

/-- The attach-mode usage loop changes nothing but `caps`, `locs`, `ai`. -/
theorem match_loop_sc_scalars (hi : hid_item) :
    ∀ (fuel j : Nat) (s : Pass2State),
      (wmt_match_loop_sc hi fuel j s).touch_coll = s.touch_coll ∧
      (wmt_match_loop_sc hi fuel j s).finger_coll = s.finger_coll ∧
      (wmt_match_loop_sc hi fuel j s).cont = s.cont ∧
      (wmt_match_loop_sc hi fuel j s).type = s.type ∧
      (wmt_match_loop_sc hi fuel j s).report_id = s.report_id ∧
      (wmt_match_loop_sc hi fuel j s).cont_count_found
        = s.cont_count_found ∧
      (wmt_match_loop_sc hi fuel j s).scan_time_found
        = s.scan_time_found := by
  intro fuel
  induction fuel with
  | zero => intro j s; exact ⟨rfl, rfl, rfl, rfl, rfl, rfl, rfl⟩
  | succ fuel ih =>
    intro j s
    rw [wmt_match_loop_sc]
    split
    · split
      · exact ih _ _
      · split
        · exact ⟨rfl, rfl, rfl, rfl, rfl, rfl, rfl⟩
        · exact ⟨rfl, rfl, rfl, rfl, rfl, rfl, rfl⟩
    · exact ih _ _

/-- If the item's usage is not channel `i`'s usage, the probe loop leaves
bit `i` of `caps` unchanged. -/
theorem match_loop_probe_bit_of_ne (hi : hid_item) (i : Nat)
    (hne : hi.usage ≠ (wmt_hid_map i).usage) :
    ∀ (fuel j : Nat) (s : Pass2State),
      (wmt_match_loop_probe hi fuel j s).caps.testBit i
        = s.caps.testBit i := by
  intro fuel
  induction fuel with
  | zero => intro j s; rfl
  | succ fuel ih =>
    intro j s
    rw [wmt_match_loop_probe]
    by_cases hj : hi.usage = (wmt_hid_map j).usage
    · rw [if_pos hj]
      by_cases hb : s.caps.testBit j = true
      · rw [if_pos hb]
        exact ih _ _
      · rw [if_neg hb]
        exact testBit_set_other _ _ _ fun he => hne (he ▸ hj)
    · rw [if_neg hj]
      exact ih _ _

/-- If the item's usage is not channel `i`'s usage, the attach loop leaves
bit `i` of `caps` unchanged. -/
theorem match_loop_sc_bit_of_ne (hi : hid_item) (i : Nat)
    (hne : hi.usage ≠ (wmt_hid_map i).usage) :
    ∀ (fuel j : Nat) (s : Pass2State),
      (wmt_match_loop_sc hi fuel j s).caps.testBit i = s.caps.testBit i := by
  intro fuel
  induction fuel with
  | zero => intro j s; rfl
  | succ fuel ih =>
    intro j s
    rw [wmt_match_loop_sc]
    by_cases hj : hi.usage = (wmt_hid_map j).usage
    · rw [if_pos hj]
      by_cases hsz : (s.locs s.cont j).size ≠ 0
      · rw [if_pos hsz]
        exact ih _ _
      · rw [if_neg hsz]
        by_cases hc : 0 < s.cont
        · rw [if_pos hc]
        · rw [if_neg hc]
          exact testBit_set_other _ _ _ fun he => hne (he ▸ hj)
    · rw [if_neg hj]
      exact ih _ _

/-- The probe loop never clears a `caps` bit. -/
theorem match_loop_probe_bit_mono (hi : hid_item) (i : Nat) :
    ∀ (fuel j : Nat) (s : Pass2State), s.caps.testBit i = true →
      (wmt_match_loop_probe hi fuel j s).caps.testBit i = true := by
  intro fuel
  induction fuel with
  | zero => intro j s h; exact h
  | succ fuel ih =>
    intro j s h
    rw [wmt_match_loop_probe]
    split
    · split
      · exact ih _ _ h
      · show (s.caps ||| 1 <<< j).testBit i = true
        simp [Nat.testBit_or, h]
    · exact ih _ _ h

/-- The attach loop never clears a `caps` bit. -/
theorem match_loop_sc_bit_mono (hi : hid_item) (i : Nat) :
    ∀ (fuel j : Nat) (s : Pass2State), s.caps.testBit i = true →
      (wmt_match_loop_sc hi fuel j s).caps.testBit i = true := by
  intro fuel
  induction fuel with
  | zero => intro j s h; exact h
  | succ fuel ih =>
    intro j s h
    rw [wmt_match_loop_sc]
    split
    · split
      · exact ih _ _ h
      · split
        · exact h
        · show (s.caps ||| 1 <<< j).testBit i = true
          simp [Nat.testBit_or, h]
    · exact ih _ _ h

/-- If channel `i` is the first channel from `j` on whose usage the item
carries, the probe loop ends with bit `i` set. -/
theorem match_loop_probe_bit_set (hi : hid_item) (i : Nat)
    (hu : hi.usage = (wmt_hid_map i).usage) :
    ∀ (fuel j : Nat) (s : Pass2State), j ≤ i → i < j + fuel →
      (∀ j', j ≤ j' → j' < i → hi.usage ≠ (wmt_hid_map j').usage) →
      (wmt_match_loop_probe hi fuel j s).caps.testBit i = true := by
  intro fuel
  induction fuel with
  | zero => intro j s hj hlt _; omega
  | succ fuel ih =>
    intro j s hj hlt hleast
    rw [wmt_match_loop_probe]
    rcases Nat.eq_or_lt_of_le hj with he | hlt2
    · have hj2 : hi.usage = (wmt_hid_map j).usage := by
        rw [he]
        exact hu
      rw [if_pos hj2]
      by_cases hb : s.caps.testBit j = true
      · rw [if_pos hb]
        apply match_loop_probe_bit_mono
        rw [← he]
        exact hb
      · rw [if_neg hb]
        rw [← he]
        exact testBit_set_self _ _
    · rw [if_neg (hleast j (Nat.le_refl j) hlt2)]
      exact ih (j + 1) s hlt2 (by omega)
        fun j' h1 h2 => hleast j' (by omega) h2

/-- The attach loop with a positive contact index changes neither `caps`
nor row 0 of the location table. -/
theorem match_loop_sc_cont_pos (hi : hid_item) :
    ∀ (fuel j : Nat) (s : Pass2State), 0 < s.cont →
      (wmt_match_loop_sc hi fuel j s).caps = s.caps ∧
      (∀ t, (wmt_match_loop_sc hi fuel j s).locs 0 t = s.locs 0 t) := by
  intro fuel
  induction fuel with
  | zero => intro j s _; exact ⟨rfl, fun _ => rfl⟩
  | succ fuel ih =>
    intro j s hc
    rw [wmt_match_loop_sc]
    by_cases hj : hi.usage = (wmt_hid_map j).usage
    · rw [if_pos hj]
      by_cases hsz : (s.locs s.cont j).size ≠ 0
      · rw [if_pos hsz]
        exact ih _ _ hc
      · rw [if_neg hsz, if_pos hc]
        refine ⟨rfl, fun t => ?_⟩
        show upd2 s.locs s.cont j hi.loc 0 t = s.locs 0 t
        rw [upd2, if_neg]
        rintro ⟨h0, -⟩
        omega
    · rw [if_neg hj]
      exact ih _ _ hc

/-- The attach loop at contact 0 preserves the invariant that a recorded
(non-zero-width) location in row 0 implies the capability bit. -/
theorem match_loop_sc_inv (hi : hid_item) :
    ∀ (fuel j : Nat) (s : Pass2State), s.cont = 0 →
      (∀ t, (s.locs 0 t).size ≠ 0 → s.caps.testBit t = true) →
      (∀ t, ((wmt_match_loop_sc hi fuel j s).locs 0 t).size ≠ 0 →
        (wmt_match_loop_sc hi fuel j s).caps.testBit t = true) := by
  intro fuel
  induction fuel with
  | zero => intro j s _ hinv; exact hinv
  | succ fuel ih =>
    intro j s hc hinv
    rw [wmt_match_loop_sc]
    by_cases hj : hi.usage = (wmt_hid_map j).usage
    · rw [if_pos hj]
      by_cases hsz : (s.locs s.cont j).size ≠ 0
      · rw [if_pos hsz]
        exact ih _ _ hc hinv
      · rw [if_neg hsz, if_neg (by omega : ¬0 < s.cont)]
        intro t ht
        by_cases htj : t = j
        · subst htj
          exact testBit_set_self _ _
        · rw [testBit_set_other _ _ _ fun he => htj he.symm]
          apply hinv
          have : upd2 s.locs s.cont j hi.loc 0 t = s.locs 0 t := by
            rw [upd2, if_neg]
            rintro ⟨-, h2⟩
            exact htj h2
          rw [← this]
          exact ht
    · rw [if_neg hj]
      exact ih _ _ hc hinv

/-- If channel `i` is the first channel from `j` on whose usage the item
carries, the attach loop at contact 0 (under the row-0 invariant) ends with
bit `i` set. -/
theorem match_loop_sc_bit_set (hi : hid_item) (i : Nat)
    (hu : hi.usage = (wmt_hid_map i).usage) :
    ∀ (fuel j : Nat) (s : Pass2State), s.cont = 0 → j ≤ i → i < j + fuel →
      (∀ j', j ≤ j' → j' < i → hi.usage ≠ (wmt_hid_map j').usage) →
      (∀ t, (s.locs 0 t).size ≠ 0 → s.caps.testBit t = true) →
      (wmt_match_loop_sc hi fuel j s).caps.testBit i = true := by
  intro fuel
  induction fuel with
  | zero => intro j s _ hj hlt _ _; omega
  | succ fuel ih =>
    intro j s hc hj hlt hleast hinv
    rw [wmt_match_loop_sc]
    rcases Nat.eq_or_lt_of_le hj with he | hlt2
    · have hj2 : hi.usage = (wmt_hid_map j).usage := by
        rw [he]
        exact hu
      rw [if_pos hj2]
      by_cases hsz : (s.locs s.cont j).size ≠ 0
      · rw [if_pos hsz]
        apply match_loop_sc_bit_mono
        rw [← he]
        rw [hc] at hsz
        exact hinv j hsz
      · rw [if_neg hsz, if_neg (by omega : ¬0 < s.cont)]
        rw [← he]
        exact testBit_set_self _ _
    · rw [if_neg (hleast j (Nat.le_refl j) hlt2)]
      exact ih (j + 1) s hc hlt2 (by omega)
        (fun j' h1 h2 => hleast j' (by omega) h2) hinv

/-- A single input-walk step cannot set capability bit `i` unless the item
is an input item carrying channel `i`'s usage while the walk is inside a
finger sub-collection. -/
theorem pass2_step_bit_clear (probe : Bool) (i : Nat) (s : Pass2State)
    (hi : hid_item) (hbit : s.caps.testBit i = false)
    (hno : hi.kind = .hid_input → hi.usage = (wmt_hid_map i).usage →
      s.finger_coll = false) :
    (pass2_step probe s hi).caps.testBit i = false := by
  cases hk : hi.kind with
  | hid_collection =>
    have : (pass2_step probe s hi).caps = s.caps := by
      rw [pass2_step, hk]
      dsimp only
      split_ifs <;> rfl
    rw [this]
    exact hbit
  | hid_endcollection =>
    have : (pass2_step probe s hi).caps = s.caps := by
      rw [pass2_step, hk]
      dsimp only
      split_ifs <;> rfl
    rw [this]
    exact hbit
  | hid_output =>
    rw [pass2_step, hk]
    exact hbit
  | hid_feature =>
    rw [pass2_step, hk]
    exact hbit
  | hid_input =>
    rw [pass2_step, hk]
    dsimp only
    by_cases hgate : WMT_HI_ABSOLUTE hi = true ∧ s.touch_coll = true ∧
        (s.report_id = 0 ∨ s.report_id = hi.report_ID)
    · rw [if_pos hgate]
      by_cases hcc : hi.collevel = 1 ∧
          hi.usage = HID_USAGE2 HUP_DIGITIZERS HUD_CONTACTCOUNT
      · rw [if_pos hcc]
        exact hbit
      · rw [if_neg hcc]
        by_cases hst : hi.collevel = 1 ∧
            hi.usage = HID_USAGE2 HUP_DIGITIZERS HUD_SCAN_TIME
        · rw [if_pos hst]
          exact hbit
        · rw [if_neg hst]
          by_cases hfc : ¬s.finger_coll = true ∨ ¬hi.collevel = 2
          · rw [if_pos hfc]
            exact hbit
          · rw [if_neg hfc]
            push_neg at hfc
            have husage : hi.usage ≠ (wmt_hid_map i).usage := by
              intro hu
              rw [hno hk hu] at hfc
              exact absurd hfc.1 (by decide)
            by_cases hpc : probe = true ∧ 0 < s.cont
            · rw [if_pos hpc]
              exact hbit
            · rw [if_neg hpc]
              by_cases hm : MAX_MT_SLOTS ≤ s.cont
              · rw [if_pos hm]
                exact hbit
              · rw [if_neg hm]
                by_cases hp : probe = true
                · rw [if_pos hp]
                  rw [match_loop_probe_bit_of_ne hi i husage]
                  exact hbit
                · rw [if_neg hp]
                  rw [match_loop_sc_bit_of_ne hi i husage]
                  exact hbit
    · rw [if_neg hgate]
      exact hbit

/-- Over a whole input walk from any start state: if capability bit `i`
starts clear and no input item carrying channel `i`'s usage is ever
processed while the finger flag is set, the bit stays clear. -/
theorem pass2_from_bit_clear (probe : Bool) (i : Nat) :
    ∀ (items : List hid_item) (s : Pass2State),
      s.caps.testBit i = false →
      (∀ (n : Nat) (hn : n < items.length),
        (items.get ⟨n, hn⟩).kind = .hid_input →
        (items.get ⟨n, hn⟩).usage = (wmt_hid_map i).usage →
        (pass2_from probe s (items.take n)).finger_coll = false) →
      (pass2_from probe s items).caps.testBit i = false := by
  intro items
  induction items with
  | nil =>
    intro s h _
    exact h
  | cons hi t ih =>
    intro s hbit htrace
    have hstep : (pass2_step probe s hi).caps.testBit i = false :=
      pass2_step_bit_clear probe i s hi hbit
        fun hk hu => htrace 0 (Nat.succ_pos t.length) hk hu
    exact ih (pass2_step probe s hi) hstep
      fun n hn hk hu => htrace (n + 1) (Nat.succ_lt_succ hn) hk hu

/-- A missing required capability bit fails the validation loop. -/
theorem required_ok_false_of_bit (caps i : Nat) (hi12 : i < WMT_N_USAGES)
    (hreq : (wmt_hid_map i).required = true)
    (hbit : caps.testBit i = false) :
    wmt_required_ok caps = false := by
  rw [wmt_required_ok]
  cases hall : (List.range WMT_N_USAGES).all
      (fun j => !(wmt_hid_map j).required || caps.testBit j) with
  | false => rfl
  | true =>
    exfalso
    have := List.all_eq_true.mp hall i (List.mem_range.mpr hi12)
    rw [hreq, hbit] at this
    exact absurd this (by decide)

/-- C4: for every descriptor in which some required channel (tip switch, X,
Y or contact id) has no matching input field inside a finger
sub-collection, attach-mode analysis rejects the device: `wmt_hid_parse`
returns 0 and publishes no Device Profile. -/
theorem missing_required_channel_rejected (items : List hid_item) (i : Nat)
    (hi12 : i < WMT_N_USAGES) (hreq : (wmt_hid_map i).required = true)
    (habsent : ∀ (n : Nat) (hn : n < items.length),
      (items.get ⟨n, hn⟩).kind = .hid_input →
      (items.get ⟨n, hn⟩).usage = (wmt_hid_map i).usage →
      (pass2_from false pass2Init (items.take n)).finger_coll = false) :
    (wmt_hid_parse false items).1 = 0 ∧
    (wmt_hid_parse false items).2 = none := by
  have hbit : (pass2 false items).caps.testBit i = false :=
    pass2_from_bit_clear false i items pass2Init (by simp [pass2Init])
      habsent
  have hreqfail : wmt_required_ok (pass2 false items).caps = false :=
    required_ok_false_of_bit _ i hi12 hreq hbit
  simp only [wmt_hid_parse]
  by_cases h1 : (pass1 false items).cont_max_rid = 0
  · rw [if_pos h1]
    exact ⟨rfl, rfl⟩
  · rw [if_neg h1]
    by_cases h2 : ¬(pass2 false items).cont_count_found = true ∨
        ¬(pass2 false items).scan_time_found = true ∨
        (pass2 false items).cont = 0
    · rw [if_pos h2]
      exact ⟨rfl, rfl⟩
    · rw [if_neg h2]
      rw [if_pos (show ¬wmt_required_ok (pass2 false items).caps = true by
        rw [hreqfail]
        decide)]
      exact ⟨rfl, rfl⟩

/-- Witness for C4: `demoItemsNoCid` lacks any contact-id input field, and
attach-mode analysis rejects it. -/
theorem missing_required_channel_rejected_witness :
    (wmt_hid_parse false demoItemsNoCid).1 = 0 ∧
    (wmt_hid_parse false demoItemsNoCid).2 = none :=
  missing_required_channel_rejected demoItemsNoCid WMT_CONTACTID
    (by decide) (by decide) (by decide)

/-! ### Probe-mode versus attach-mode (C9) -/

/-- Every required channel has the least index among table rows sharing its
usage (X and Y come before tool-X and tool-Y; the other required usages are
unique). -/
theorem required_least : ∀ i < WMT_N_USAGES,
    (wmt_hid_map i).required = true →
    ∀ j < i, (wmt_hid_map j).usage ≠ (wmt_hid_map i).usage := by decide

theorem pass2_step_modes (hi : hid_item) (sp sa : Pass2State)
    (h : P2Rel sp sa) :
    P2Rel (pass2_step true sp hi) (pass2_step false sa hi) := by
  obtain ⟨htc, hfc, hcont, htype, hrid, hccf, hstf, hbits, hinv⟩ := h
  cases hk : hi.kind with
  | hid_output =>
    rw [pass2_step, pass2_step, hk]
    exact ⟨htc, hfc, hcont, htype, hrid, hccf, hstf, hbits, hinv⟩
  | hid_feature =>
    rw [pass2_step, pass2_step, hk]
    exact ⟨htc, hfc, hcont, htype, hrid, hccf, hstf, hbits, hinv⟩
  | hid_collection =>
    rw [pass2_step, pass2_step, hk]
    dsimp only
    by_cases hc1 : hi.collevel = 1 ∧
        hi.usage = HID_USAGE2 HUP_DIGITIZERS HUD_TOUCHSCREEN
    · rw [if_pos hc1, if_pos hc1]
      dsimp only
      by_cases hc2 : hi.collevel = 1 ∧
          hi.usage = HID_USAGE2 HUP_DIGITIZERS HUD_TOUCHPAD
      · rw [if_pos hc2, if_pos hc2]
        exact ⟨rfl, hfc, hcont, rfl, hrid, hccf, hstf, hbits, hinv⟩
      · rw [if_neg hc2, if_neg hc2]
        by_cases hc3 : (true : Bool) = true ∧ hi.collevel = 2 ∧
            (sp.report_id = 0 ∨ sp.report_id = hi.report_ID) ∧
            hi.usage = HID_USAGE2 HUP_DIGITIZERS HUD_FINGER
        · rw [if_pos hc3, if_pos (show (true : Bool) = true ∧
              hi.collevel = 2 ∧
              (sa.report_id = 0 ∨ sa.report_id = hi.report_ID) ∧
              hi.usage = HID_USAGE2 HUP_DIGITIZERS HUD_FINGER by
            refine ⟨rfl, hc3.2.1, ?_, hc3.2.2.2⟩
            rw [← hrid]
            exact hc3.2.2.1)]
          exact ⟨rfl, rfl, hcont, rfl, hrid, hccf, hstf, hbits, hinv⟩
        · rw [if_neg hc3, if_neg (show ¬((true : Bool) = true ∧
              hi.collevel = 2 ∧
              (sa.report_id = 0 ∨ sa.report_id = hi.report_ID) ∧
              hi.usage = HID_USAGE2 HUP_DIGITIZERS HUD_FINGER) by
            intro hca
            apply hc3
            refine ⟨rfl, hca.2.1, ?_, hca.2.2.2⟩
            rw [hrid]
            exact hca.2.2.1)]
          exact ⟨rfl, hfc, hcont, rfl, hrid, hccf, hstf, hbits, hinv⟩
    · rw [if_neg hc1, if_neg hc1]
      by_cases hc2 : hi.collevel = 1 ∧
          hi.usage = HID_USAGE2 HUP_DIGITIZERS HUD_TOUCHPAD
      · rw [if_pos hc2, if_pos hc2]
        exact ⟨rfl, hfc, hcont, rfl, hrid, hccf, hstf, hbits, hinv⟩
      · rw [if_neg hc2, if_neg hc2]
        by_cases hc3 : sp.touch_coll = true ∧ hi.collevel = 2 ∧
            (sp.report_id = 0 ∨ sp.report_id = hi.report_ID) ∧
            hi.usage = HID_USAGE2 HUP_DIGITIZERS HUD_FINGER
        · rw [if_pos hc3, if_pos (show sa.touch_coll = true ∧
              hi.collevel = 2 ∧
              (sa.report_id = 0 ∨ sa.report_id = hi.report_ID) ∧
              hi.usage = HID_USAGE2 HUP_DIGITIZERS HUD_FINGER by
            refine ⟨by rw [← htc]; exact hc3.1, hc3.2.1, ?_, hc3.2.2.2⟩
            rw [← hrid]
            exact hc3.2.2.1)]
          exact ⟨htc, rfl, hcont, htype, hrid, hccf, hstf, hbits, hinv⟩
        · rw [if_neg hc3, if_neg (show ¬(sa.touch_coll = true ∧
              hi.collevel = 2 ∧
              (sa.report_id = 0 ∨ sa.report_id = hi.report_ID) ∧
              hi.usage = HID_USAGE2 HUP_DIGITIZERS HUD_FINGER) by
            intro hca
            apply hc3
            refine ⟨by rw [htc]; exact hca.1, hca.2.1, ?_, hca.2.2.2⟩
            rw [hrid]
            exact hca.2.2.1)]
          exact ⟨htc, hfc, hcont, htype, hrid, hccf, hstf, hbits, hinv⟩
  | hid_endcollection =>
    rw [pass2_step, pass2_step, hk]
    dsimp only
    by_cases hc1 : hi.collevel = 1 ∧ sp.finger_coll = true
    · rw [if_pos hc1, if_pos (show hi.collevel = 1 ∧ sa.finger_coll = true
          from ⟨hc1.1, by rw [← hfc]; exact hc1.2⟩)]
      exact ⟨htc, rfl, by rw [hcont], htype, hrid, hccf, hstf, hbits, hinv⟩
    · rw [if_neg hc1, if_neg (show ¬(hi.collevel = 1 ∧
          sa.finger_coll = true) by
        intro hca
        exact hc1 ⟨hca.1, by rw [hfc]; exact hca.2⟩)]
      by_cases hc2 : hi.collevel = 0 ∧ sp.touch_coll = true
      · rw [if_pos hc2, if_pos (show hi.collevel = 0 ∧ sa.touch_coll = true
            from ⟨hc2.1, by rw [← htc]; exact hc2.2⟩)]
        exact ⟨rfl, hfc, hcont, htype, hrid, hccf, hstf, hbits, hinv⟩
      · rw [if_neg hc2, if_neg (show ¬(hi.collevel = 0 ∧
            sa.touch_coll = true) by
          intro hca
          exact hc2 ⟨hca.1, by rw [htc]; exact hca.2⟩)]
        exact ⟨htc, hfc, hcont, htype, hrid, hccf, hstf, hbits, hinv⟩
  | hid_input =>
    rw [pass2_step, pass2_step, hk]
    dsimp only
    by_cases hg : WMT_HI_ABSOLUTE hi = true ∧ sp.touch_coll = true ∧
        (sp.report_id = 0 ∨ sp.report_id = hi.report_ID)
    · rw [if_pos hg, if_pos (show WMT_HI_ABSOLUTE hi = true ∧
          sa.touch_coll = true ∧
          (sa.report_id = 0 ∨ sa.report_id = hi.report_ID) by
        refine ⟨hg.1, by rw [← htc]; exact hg.2.1, ?_⟩
        rw [← hrid]
        exact hg.2.2)]
      by_cases hcc : hi.collevel = 1 ∧
          hi.usage = HID_USAGE2 HUP_DIGITIZERS HUD_CONTACTCOUNT
      · rw [if_pos hcc, if_pos hcc]
        exact ⟨htc, hfc, hcont, htype, rfl, rfl, hstf, hbits, hinv⟩
      · rw [if_neg hcc, if_neg hcc]
        by_cases hst : hi.collevel = 1 ∧
            hi.usage = HID_USAGE2 HUP_DIGITIZERS HUD_SCAN_TIME
        · rw [if_pos hst, if_pos hst]
          exact ⟨htc, hfc, hcont, htype, rfl, hccf, rfl, hbits, hinv⟩
        · rw [if_neg hst, if_neg hst]
          by_cases hfg : ¬sp.finger_coll = true ∨ ¬hi.collevel = 2
          · rw [if_pos hfg, if_pos (show ¬sa.finger_coll = true ∨
                ¬hi.collevel = 2 by
              rcases hfg with hl | hr
              · exact Or.inl (by rw [← hfc]; exact hl)
              · exact Or.inr hr)]
            exact ⟨htc, hfc, hcont, htype, rfl, hccf, hstf, hbits, hinv⟩
          · rw [if_neg hfg, if_neg (show ¬(¬sa.finger_coll = true ∨
                ¬hi.collevel = 2) by
              intro hfga
              apply hfg
              rcases hfga with hl | hr
              · exact Or.inl (by rw [hfc]; exact hl)
              · exact Or.inr hr)]
            rw [if_neg (show ¬((false : Bool) = true ∧ 0 < sa.cont) by
              rintro ⟨hbad, -⟩
              exact absurd hbad (by decide))]
            by_cases hcp : (true : Bool) = true ∧ 0 < sp.cont
            · rw [if_pos hcp]
              by_cases hm : MAX_MT_SLOTS ≤ sa.cont
              · rw [if_pos hm]
                exact ⟨htc, hfc, hcont, htype, rfl, hccf, hstf, hbits,
                  hinv⟩
              · rw [if_neg hm]
                have hca : 0 < sa.cont := hcont ▸ hcp.2
                obtain ⟨hcapsa, hlocsa⟩ :=
                  match_loop_sc_cont_pos hi WMT_N_USAGES 0
                    { sa with report_id := hi.report_ID } hca
                obtain ⟨a1, a2, a3, a4, a5, a6, a7⟩ :=
                  match_loop_sc_scalars hi WMT_N_USAGES 0
                    { sa with report_id := hi.report_ID }
                rw [if_neg (by decide : ¬(false : Bool) = true)]
                refine ⟨by rw [a1]; exact htc, by rw [a2]; exact hfc,
                  by rw [a3]; exact hcont, by rw [a4]; exact htype,
                  by rw [a5], by rw [a6]; exact hccf,
                  by rw [a7]; exact hstf, ?_, ?_⟩
                · intro i h12 hreq
                  rw [hcapsa]
                  exact hbits i h12 hreq
                · intro t ht
                  rw [hcapsa]
                  rw [hlocsa] at ht
                  exact hinv t ht
            · rw [if_neg hcp]
              have hc0 : sp.cont = 0 := by
                rcases Nat.eq_zero_or_pos sp.cont with h0 | h0
                · exact h0
                · exact absurd ⟨rfl, h0⟩ hcp
              have hca0 : sa.cont = 0 := hcont ▸ hc0
              by_cases hm : MAX_MT_SLOTS ≤ sp.cont
              · rw [if_pos hm, if_pos (show MAX_MT_SLOTS ≤ sa.cont by
                  rw [← hcont]
                  exact hm)]
                exact ⟨htc, hfc, hcont, htype, rfl, hccf, hstf, hbits,
                  hinv⟩
              · rw [if_neg hm, if_neg (show ¬MAX_MT_SLOTS ≤ sa.cont by
                  rw [← hcont]
                  exact hm)]
                rw [if_pos (rfl : (true : Bool) = true),
                  if_neg (by decide : ¬(false : Bool) = true)]
                obtain ⟨p1, p2, p3, p4, p5, p6, p7⟩ :=
                  match_loop_probe_scalars hi WMT_N_USAGES 0
                    { sp with report_id := hi.report_ID }
                obtain ⟨a1, a2, a3, a4, a5, a6, a7⟩ :=
                  match_loop_sc_scalars hi WMT_N_USAGES 0
                    { sa with report_id := hi.report_ID }
                have hinvA : ∀ t,
                    (({ sa with report_id := hi.report_ID } :
                      Pass2State).locs 0 t).size ≠ 0 →
                    ({ sa with report_id := hi.report_ID } :
                      Pass2State).caps.testBit t = true := hinv
                refine ⟨by rw [p1, a1]; exact htc,
                  by rw [p2, a2]; exact hfc,
                  by rw [p3, a3]; exact hcont,
                  by rw [p4, a4]; exact htype,
                  by rw [p5, a5], by rw [p6, a6]; exact hccf,
                  by rw [p7, a7]; exact hstf, ?_, ?_⟩
                · intro i h12 hreq
                  by_cases hu : hi.usage = (wmt_hid_map i).usage
                  · have hp := match_loop_probe_bit_set hi i hu
                      WMT_N_USAGES 0 { sp with report_id := hi.report_ID }
                      (Nat.zero_le i) (by omega)
                      fun j' _ hj' heq =>
                        absurd (heq ▸ hu)
                          (required_least i h12 hreq j' hj')
                    have ha := match_loop_sc_bit_set hi i hu
                      WMT_N_USAGES 0 { sa with report_id := hi.report_ID }
                      hca0 (Nat.zero_le i) (by omega)
                      (fun j' _ hj' heq =>
                        absurd (heq ▸ hu)
                          (required_least i h12 hreq j' hj'))
                      hinvA
                    rw [hp, ha]
                  · rw [match_loop_probe_bit_of_ne hi i hu,
                      match_loop_sc_bit_of_ne hi i hu]
                    exact hbits i h12 hreq
                · exact match_loop_sc_inv hi WMT_N_USAGES 0
                    { sa with report_id := hi.report_ID } hca0 hinvA
    · rw [if_neg hg, if_neg (show ¬(WMT_HI_ABSOLUTE hi = true ∧
          sa.touch_coll = true ∧
          (sa.report_id = 0 ∨ sa.report_id = hi.report_ID)) by
        intro hga
        apply hg
        refine ⟨hga.1, by rw [htc]; exact hga.2.1, ?_⟩
        rw [hrid]
        exact hga.2.2)]
      exact ⟨htc, hfc, hcont, htype, hrid, hccf, hstf, hbits, hinv⟩

/-- The simulation relation is preserved by a whole input walk. -/
theorem pass2_from_modes :
    ∀ (items : List hid_item) (sp sa : Pass2State), P2Rel sp sa →
      P2Rel (pass2_from true sp items) (pass2_from false sa items) := by
  intro items
  induction items with
  | nil => intro sp sa h; exact h
  | cons hi t ih =>
    intro sp sa h
    exact ih (pass2_step true sp hi) (pass2_step false sa hi)
      (pass2_step_modes hi sp sa h)

/-- The initial input-walk states are related. -/
theorem P2Rel_init : P2Rel pass2Init pass2Init :=
  ⟨rfl, rfl, rfl, rfl, rfl, rfl, rfl, fun _ _ _ => rfl,
   fun _ ht => absurd rfl ht⟩

/-- One feature-walk step preserves equality of all fields except the two
recorded locations (the only fields guarded by `sc != NULL`). -/
theorem pass1_step_modes (hi : hid_item) (s1 s2 : Pass1State)
    (h1 : s1.touch_coll = s2.touch_coll) (h2 : s1.conf_coll = s2.conf_coll)
    (h3 : s1.cont_count_max = s2.cont_count_max)
    (h4 : s1.cont_max_rid = s2.cont_max_rid)
    (h5 : s1.thqa_cert_rid = s2.thqa_cert_rid)
    (h6 : s1.input_mode_rid = s2.input_mode_rid) :
    (pass1_step true s1 hi).touch_coll = (pass1_step false s2 hi).touch_coll ∧
    (pass1_step true s1 hi).conf_coll = (pass1_step false s2 hi).conf_coll ∧
    (pass1_step true s1 hi).cont_count_max
      = (pass1_step false s2 hi).cont_count_max ∧
    (pass1_step true s1 hi).cont_max_rid
      = (pass1_step false s2 hi).cont_max_rid ∧
    (pass1_step true s1 hi).thqa_cert_rid
      = (pass1_step false s2 hi).thqa_cert_rid ∧
    (pass1_step true s1 hi).input_mode_rid
      = (pass1_step false s2 hi).input_mode_rid := by
  cases hk : hi.kind <;>
    simp only [pass1_step, hk] <;>
    first
      | (split_ifs <;> simp_all)
      | simp_all

/-- A whole feature walk preserves the six mode-independent fields. -/
theorem pass1_from_modes :
    ∀ (items : List hid_item) (s1 s2 : Pass1State),
      s1.touch_coll = s2.touch_coll → s1.conf_coll = s2.conf_coll →
      s1.cont_count_max = s2.cont_count_max →
      s1.cont_max_rid = s2.cont_max_rid →
      s1.thqa_cert_rid = s2.thqa_cert_rid →
      s1.input_mode_rid = s2.input_mode_rid →
      (items.foldl (pass1_step true) s1).touch_coll
        = (items.foldl (pass1_step false) s2).touch_coll ∧
      (items.foldl (pass1_step true) s1).conf_coll
        = (items.foldl (pass1_step false) s2).conf_coll ∧
      (items.foldl (pass1_step true) s1).cont_count_max
        = (items.foldl (pass1_step false) s2).cont_count_max ∧
      (items.foldl (pass1_step true) s1).cont_max_rid
        = (items.foldl (pass1_step false) s2).cont_max_rid ∧
      (items.foldl (pass1_step true) s1).thqa_cert_rid
        = (items.foldl (pass1_step false) s2).thqa_cert_rid ∧
      (items.foldl (pass1_step true) s1).input_mode_rid
        = (items.foldl (pass1_step false) s2).input_mode_rid := by
  intro items
  induction items with
  | nil => intro s1 s2 h1 h2 h3 h4 h5 h6; exact ⟨h1, h2, h3, h4, h5, h6⟩
  | cons hi t ih =>
    intro s1 s2 h1 h2 h3 h4 h5 h6
    obtain ⟨g1, g2, g3, g4, g5, g6⟩ :=
      pass1_step_modes hi s1 s2 h1 h2 h3 h4 h5 h6
    exact ih _ _ g1 g2 g3 g4 g5 g6

/-- The feature walk finds the same contact-count-maximum report id,
declared maximum and collection flags in both modes. -/
theorem pass1_modes (items : List hid_item) :
    (pass1 true items).cont_max_rid = (pass1 false items).cont_max_rid ∧
    (pass1 true items).cont_count_max = (pass1 false items).cont_count_max :=
  ⟨(pass1_from_modes items pass1Init pass1Init rfl rfl rfl rfl rfl
      rfl).2.2.2.1,
   (pass1_from_modes items pass1Init pass1Init rfl rfl rfl rfl rfl
      rfl).2.2.1⟩

/-- `List.all` is congruent under pointwise equal predicates. -/
theorem list_all_congr {α : Type} (l : List α) (p q : α → Bool)
    (h : ∀ x ∈ l, p x = q x) : l.all p = l.all q := by
  induction l with
  | nil => rfl
  | cons a t ih =>
    rw [List.all_cons, List.all_cons, h a (List.mem_cons_self a t),
      ih fun x hx => h x (List.mem_cons_of_mem a hx)]

/-- The required-usage validation agrees on capability masks that agree on
the required bits. -/
theorem required_ok_congr (c1 c2 : Nat)
    (h : ∀ i, i < WMT_N_USAGES → (wmt_hid_map i).required = true →
      c1.testBit i = c2.testBit i) :
    wmt_required_ok c1 = wmt_required_ok c2 := by
  rw [wmt_required_ok, wmt_required_ok]
  apply list_all_congr
  intro i him
  cases hr : (wmt_hid_map i).required with
  | false => rfl
  | true => rw [h i (List.mem_range.mp him) hr]

/-- C9 (amended): `wmt_hid_parse` returns the same value in probe mode
(`sc == NULL`) and attach mode — the same collection type on acceptance and
0 on rejection — and the two modes agree on the found-flags, the finger
count, the required capability bits and the validation outcome.  (The full
capability sets can differ on non-required channels when a matched field
has zero bit width, which is why the claim as stated is refuted by
`probe_attach_caps_differ`.) -/
theorem probe_attach_same_return (items : List hid_item) :
    (wmt_hid_parse true items).1 = (wmt_hid_parse false items).1 ∧
    (pass2 true items).cont_count_found
      = (pass2 false items).cont_count_found ∧
    (pass2 true items).scan_time_found
      = (pass2 false items).scan_time_found ∧
    (pass2 true items).cont = (pass2 false items).cont ∧
    wmt_required_ok (pass2 true items).caps
      = wmt_required_ok (pass2 false items).caps ∧
    (∀ i, i < WMT_N_USAGES → (wmt_hid_map i).required = true →
      (pass2 true items).caps.testBit i
        = (pass2 false items).caps.testBit i) := by
  obtain ⟨htc, hfc, hcont0, htype0, hrid0, hccf0, hstf0, hbits0, hinv⟩ :=
    pass2_from_modes items pass2Init pass2Init P2Rel_init
  have hcont : (pass2 true items).cont = (pass2 false items).cont := hcont0
  have htype : (pass2 true items).type = (pass2 false items).type := htype0
  have hccf : (pass2 true items).cont_count_found
      = (pass2 false items).cont_count_found := hccf0
  have hstf : (pass2 true items).scan_time_found
      = (pass2 false items).scan_time_found := hstf0
  have hbits : ∀ i, i < WMT_N_USAGES → (wmt_hid_map i).required = true →
      (pass2 true items).caps.testBit i
        = (pass2 false items).caps.testBit i := hbits0
  have hreqok : wmt_required_ok (pass2 true items).caps
      = wmt_required_ok (pass2 false items).caps :=
    required_ok_congr _ _ hbits
  have hp1 : (pass1 true items).cont_max_rid
      = (pass1 false items).cont_max_rid := (pass1_modes items).1
  refine ⟨?_, hccf, hstf, hcont, hreqok, hbits⟩
  simp only [wmt_hid_parse]
  rw [hp1, hccf, hstf, hcont, hreqok]
  by_cases h1 : (pass1 false items).cont_max_rid = 0
  · rw [if_pos h1, if_pos h1]
  · rw [if_neg h1, if_neg h1]
    by_cases h2 : ¬(pass2 false items).cont_count_found = true ∨
        ¬(pass2 false items).scan_time_found = true ∨
        (pass2 false items).cont = 0
    · rw [if_pos h2, if_pos h2]
    · rw [if_neg h2, if_neg h2]
      by_cases h3 : ¬wmt_required_ok (pass2 false items).caps = true
      · rw [if_pos h3, if_pos h3]
      · rw [if_neg h3, if_neg h3]
        rw [if_pos trivial,
          if_neg (by decide : ¬(false = true))]
        exact htype

end Imt
